import Mathlib

/-!
Verification development for the registration-assistant repository.

The JavaScript sources are shallowly embedded as executable Lean
definitions:

* `src/js/formProtector.js` — the `FormProtector` object (form snapshot,
  restore, degraded-state check, birth-day option regeneration);
* `src/js/utils.js` — `Utils.checkPasswordStrength` and `Utils.retry`;
* `src/unnamed/part_001` — the `RegistrationStrategies` orchestrator
  (strategy configs, `recommendStrategy`, `executeSteps`,
  `executeStrategy`, the standard and aggressive pipelines, statistics);
* `src/js/outlookRegistration.js` — the `shouldRetry` transient-error
  substring table.

JavaScript objects with string keys are modelled as association lists in
insertion order; `undefined` lookups as `Option`; thrown errors as
`Except` with the error message as a `String`; `Math.random()`-derived
choices as explicit oracle parameters; and timer suspensions as events
recorded in an execution trace.
-/

namespace RegAssist

/-- A JavaScript object with string keys and string values, in insertion
order (used for `savedFormState` and for the set of live DOM fields:
a key is present iff `document.getElementById` finds the field). -/
abbrev Obj := List (String × String)

/-- Property lookup: `o[k]`, `undefined` (`none`) when the key is absent
(JS objects have unique keys, so first match is the key's value). -/
def objGet : Obj → String → Option String
  | [], _ => none
  | kv :: rest, k => if kv.1 = k then some kv.2 else objGet rest k

/-- Property assignment `o[k] = v` on a present key (fields are only
written through `field.value = v` after a successful lookup). -/
def objSet : Obj → String → String → Obj
  | [], _, _ => []
  | kv :: rest, k, v =>
    if kv.1 = k then (kv.1, v) :: objSet rest k v else kv :: objSet rest k v

/-- JS `String.prototype.trim`: strip leading and trailing whitespace
(computable model over the character list, used so that concrete
witnesses evaluate inside the kernel). -/
def jsTrim (s : String) : String :=
  ⟨((s.data.dropWhile Char.isWhitespace).reverse.dropWhile
      Char.isWhitespace).reverse⟩

/-- JS `FormProtector.protectedFields` (src/js/formProtector.js). -/
def protectedFields : List String :=
  ["first-name", "last-name", "desired-email", "password",
   "birth-year", "birth-month", "birth-day", "country"]

/-- The restore condition of `restoreAllValues`: the live field exists
and the saved value is truthy with non-blank trim
(`field && savedValue && savedValue.trim() !== ''`). -/
def restorable (saved live : Obj) (f : String) : Bool :=
  (objGet live f).isSome &&
    (match objGet saved f with
     | some v => !(jsTrim v == "")
     | none => false)

/-- One iteration of the `forEach` loop in `restoreAllValues`:
write the saved value back and bump `restoredCount` when restorable. -/
def restoreStep (saved : Obj) (acc : Obj × Nat) (f : String) : Obj × Nat :=
  if restorable saved acc.1 f then
    (objSet acc.1 f ((objGet saved f).getD ""), acc.2 + 1)
  else acc

/-- JS `FormProtector.restoreAllValues` (src/js/formProtector.js:92-120),
returning the updated live fields together with the internal
`restoredCount` accumulator. -/
def restoreAllValues (saved live : Obj) : Obj × Nat :=
  protectedFields.foldl (restoreStep saved) (live, 0)

/-- The value `restoreAllValues` actually returns:
`return restoredCount > 0;` — a Boolean, not the count. -/
def restoreAllValuesRet (saved live : Obj) : Bool :=
  (restoreAllValues saved live).2 > 0

/-- JS `restoreAllValues` additionally schedules
`updateBirthDaysAndRestore` (via `setTimeout`) exactly when
`this.savedFormState['birth-month']` is truthy. -/
def restoreSchedulesBirthFix (saved : Obj) : Bool :=
  match objGet saved "birth-month" with
  | some v => !(v == "")
  | none => false

/-- JS `FormProtector.setSavedData` (src/js/formProtector.js:241-244):
replaces the saved state wholesale with a copy of `data`. -/
def setSavedData (data : Obj) : Obj := data

/-- JS `FormProtector.hasValidSavedData` (src/js/formProtector.js:187-190). -/
def hasValidSavedData (saved : Obj) : Bool :=
  saved.length > 0 && saved.any (fun kv => !(jsTrim kv.2 == ""))

/-- Number of tracked fields present in the DOM (`totalCount` in
`checkFormCleared`). -/
def totalCount (live : Obj) : Nat :=
  (protectedFields.filter (fun f => (objGet live f).isSome)).length

/-- Number of tracked, present fields whose live value is blank after
trimming (`emptyCount` in `checkFormCleared`). -/
def emptyCount (live : Obj) : Nat :=
  (protectedFields.filter (fun f =>
    match objGet live f with
    | some v => jsTrim v == ""
    | none => false)).length

/-- JS `FormProtector.checkFormCleared` (src/js/formProtector.js:159-182):
true iff more than half the present tracked fields are blank and a
valid snapshot exists. -/
def checkFormCleared (saved live : Obj) : Bool :=
  decide ((emptyCount live : ℚ) / (totalCount live : ℚ) > 1/2)
    && hasValidSavedData saved

/-! ### Birth-day option regeneration (src/js/formProtector.js:125-154) -/

/-- JavaScript `parseInt` in base 10: skip leading whitespace, optional
sign, then the longest digit prefix; `NaN` (`none`) when no digits. -/
def parseIntJS (s : String) : Option Int :=
  let t := (jsTrim s).data
  let signed : Int × List Char :=
    match t with
    | '-' :: r => (-1, r)
    | '+' :: r => (1, r)
    | r => (1, r)
  let digits := signed.2.takeWhile Char.isDigit
  if digits.isEmpty then none
  else some (signed.1 *
    (digits.foldl (fun acc c => acc * 10 + (c.toNat - '0'.toNat)) 0 : Nat))

/-- Gregorian leap-year rule, as used by the JS `Date` object. -/
def isLeapYear (y : Int) : Bool :=
  y % 4 == 0 && (y % 100 != 0 || y % 400 == 0)

/-- Day count of month `m` (1–12) of year `y`. -/
def monthDays (y : Int) (m : Nat) : Nat :=
  if m = 2 then (if isLeapYear y then 29 else 28)
  else if m = 4 ∨ m = 6 ∨ m = 9 ∨ m = 11 then 30 else 31

/-- JS `new Date(year, month, 0).getDate()`: the JS `Date` month argument
is a 0-based index with rollover, and day 0 backs up to the last day of
the preceding month, so this is the day count of the 1-based month
`month` of `year` (normalized through the rollover arithmetic). -/
def daysInMonthJS (year month : Int) : Nat :=
  let t : Int := year * 12 + month - 1
  monthDays (t.fdiv 12) ((t.emod 12).toNat + 1)

/-- JS `day.toString().padStart(2, '0')`. -/
def padStart2 (s : String) : String :=
  if s.length ≥ 2 then s else "0" ++ s

/-- The birth-date part of the DOM: the live `birth-month`, `birth-year`
and `birth-day` field values, plus the `birth-day` select's option
values (`""` is the placeholder option). -/
structure BirthDom where
  monthVal : String
  yearVal : String
  dayVal : String
  dayOptions : List String
  deriving Repr, DecidableEq

/-- The guard `savedDay && parseInt(savedDay) <= daysInMonth` of
`updateBirthDaysAndRestore` (a `NaN` comparison is false). -/
def savedDayOk (sd : String) (dim : Nat) : Bool :=
  !(sd == "") && (match parseIntJS sd with
    | some d => decide (d ≤ (dim : Int))
    | none => false)

/-- JS `FormProtector.updateBirthDaysAndRestore`
(src/js/formProtector.js:125-154): regenerate the day options for the
restored month/year (resetting the day value to the blank placeholder),
then re-apply the saved day only when it parses to at most the month's
day count. -/
def updateBirthDaysAndRestore (saved : Obj) (dom : BirthDom)
    (currentYear : Int) : BirthDom :=
  match parseIntJS dom.monthVal with
  | none => dom
  | some m =>
    if m = 0 then dom
    else
      let year : Int :=
        match parseIntJS dom.yearVal with
        | some y => if y = 0 then currentYear else y
        | none => currentYear
      let dim := daysInMonthJS year m
      let dom' : BirthDom :=
        { dom with
          dayOptions := "" :: (List.range dim).map
            (fun d => padStart2 (toString (d + 1))),
          dayVal := "" }
      match objGet saved "birth-day" with
      | some sd => if savedDayOk sd dim then { dom' with dayVal := sd } else dom'
      | none => dom'

/-! ### Password strength (src/js/utils.js:75-118) -/

/-- JS `/[a-z]/` on an ASCII password. -/
def hasLowerCh (p : String) : Bool := p.data.any (fun c => 'a' ≤ c && c ≤ 'z')

/-- JS `/[A-Z]/`. -/
def hasUpperCh (p : String) : Bool := p.data.any (fun c => 'A' ≤ c && c ≤ 'Z')

/-- JS `/[0-9]/`. -/
def hasDigitCh (p : String) : Bool := p.data.any (fun c => '0' ≤ c && c ≤ '9')

/-- JS `/[^a-zA-Z0-9]/`: some character outside all three classes. -/
def hasSymbolCh (p : String) : Bool :=
  p.data.any (fun c =>
    !(('a' ≤ c && c ≤ 'z') || ('A' ≤ c && c ≤ 'Z') || ('0' ≤ c && c ≤ '9')))

/-- JS `password.length >= 8`. -/
def len8Ok (p : String) : Bool := decide (8 ≤ p.length)

/-- JS `password.length >= 12` (the second length point of the score). -/
def len12Ok (p : String) : Bool := decide (12 ≤ p.length)

/-- Result record of `Utils.checkPasswordStrength`. -/
structure StrengthResult where
  score : Nat
  level : String
  feedback : List String
  deriving Repr, DecidableEq

/-- JS `Utils.checkPasswordStrength` (src/js/utils.js:75-118): one point
per satisfied criterion (length ≥ 8, length ≥ 12, lowercase, uppercase,
digit, symbol), level thresholds ≤2 weak / ≤4 fair / ≤5 good / strong. -/
def checkPasswordStrength (password : String) : StrengthResult :=
  if password = "" then
    { score := 0, level := "weak", feedback := ["请输入密码"] }
  else
    let score :=
      (if len8Ok password then 1 else 0) +
      (if len12Ok password then 1 else 0) +
      (if hasLowerCh password then 1 else 0) +
      (if hasUpperCh password then 1 else 0) +
      (if hasDigitCh password then 1 else 0) +
      (if hasSymbolCh password then 1 else 0)
    { score := score
      level :=
        if score ≤ 2 then "weak"
        else if score ≤ 4 then "fair"
        else if score ≤ 5 then "good"
        else "strong"
      feedback :=
        (if len8Ok password then [] else ["密码长度至少8位"]) ++
        (if hasLowerCh password then [] else ["需要包含小写字母"]) ++
        (if hasUpperCh password then [] else ["需要包含大写字母"]) ++
        (if hasDigitCh password then [] else ["需要包含数字"]) ++
        (if hasSymbolCh password then [] else ["需要包含特殊字符"]) }

/-- The six-indicator score polynomial of `checkPasswordStrength`. -/
def scoreOf (l8 l12 lo up dg sy : Bool) : Nat :=
  (if l8 then 1 else 0) + (if l12 then 1 else 0) + (if lo then 1 else 0) +
  (if up then 1 else 0) + (if dg then 1 else 0) + (if sy then 1 else 0)

/-- Predicate "q adds exactly one of the five named criteria to p": the five
indicators (length ≥ 8, lowercase, uppercase, digit, symbol) agree
except that one flips from unsatisfied to satisfied. -/
def addsOneCriterion (p q : String) : Prop :=
  (len8Ok p = false ∧ len8Ok q = true ∧ hasLowerCh p = hasLowerCh q ∧
    hasUpperCh p = hasUpperCh q ∧ hasDigitCh p = hasDigitCh q ∧
    hasSymbolCh p = hasSymbolCh q)
  ∨ (len8Ok p = len8Ok q ∧ len12Ok p = len12Ok q ∧
    hasLowerCh p = false ∧ hasLowerCh q = true ∧
    hasUpperCh p = hasUpperCh q ∧ hasDigitCh p = hasDigitCh q ∧
    hasSymbolCh p = hasSymbolCh q)
  ∨ (len8Ok p = len8Ok q ∧ len12Ok p = len12Ok q ∧
    hasLowerCh p = hasLowerCh q ∧
    hasUpperCh p = false ∧ hasUpperCh q = true ∧
    hasDigitCh p = hasDigitCh q ∧ hasSymbolCh p = hasSymbolCh q)
  ∨ (len8Ok p = len8Ok q ∧ len12Ok p = len12Ok q ∧
    hasLowerCh p = hasLowerCh q ∧ hasUpperCh p = hasUpperCh q ∧
    hasDigitCh p = false ∧ hasDigitCh q = true ∧
    hasSymbolCh p = hasSymbolCh q)
  ∨ (len8Ok p = len8Ok q ∧ len12Ok p = len12Ok q ∧
    hasLowerCh p = hasLowerCh q ∧ hasUpperCh p = hasUpperCh q ∧
    hasDigitCh p = hasDigitCh q ∧
    hasSymbolCh p = false ∧ hasSymbolCh q = true)

/-! ### Strategy profiles and selection (src/unnamed/part_001:9-123) -/

/-- JS `useProxy` is `false`, `true` or the string `'auto'`. -/
inductive UseProxy where
  | off
  | on
  | auto
  deriving Repr, DecidableEq

/-- A strategy profile from the `strategies` object. -/
structure StrategyConfig where
  name : String
  retryCount : Nat
  delayRange : Nat × Nat
  useProxy : UseProxy
  randomizeData : Bool
  humanLikeDelay : Bool
  validateSteps : Bool
  parallelAttempts : Bool := false
  deriving Repr, DecidableEq

/-- JS `strategies.standard` (src/unnamed/part_001:10-19). -/
def standardConfig : StrategyConfig :=
  { name := "标准模式", retryCount := 3, delayRange := (1000, 3000),
    useProxy := .off, randomizeData := false, humanLikeDelay := true,
    validateSteps := true }

/-- JS `strategies.smart` (src/unnamed/part_001:21-32). -/
def smartConfig : StrategyConfig :=
  { name := "智能模式", retryCount := 5, delayRange := (2000, 5000),
    useProxy := .auto, randomizeData := true, humanLikeDelay := true,
    validateSteps := true }

/-- JS `strategies.aggressive` (src/unnamed/part_001:34-45). -/
def aggressiveConfig : StrategyConfig :=
  { name := "激进模式", retryCount := 10, delayRange := (500, 2000),
    useProxy := .on, randomizeData := true, humanLikeDelay := false,
    validateSteps := false, parallelAttempts := true }

/-- The `strategies` map, keyed by profile name. -/
def strategies : List (String × StrategyConfig) :=
  [("standard", standardConfig), ("smart", smartConfig),
   ("aggressive", aggressiveConfig)]

/-- JS `getStrategy` (src/unnamed/part_001:64-66):
`this.strategies[strategyName] || this.strategies.standard`. -/
def getStrategy (strategyName : String) : StrategyConfig :=
  match strategies.find? (fun e => e.1 == strategyName) with
  | some e => e.2
  | none => standardConfig

/-- Per-profile counters in `stats.strategyPerformance`. -/
structure Counters where
  attempts : Nat := 0
  successes : Nat := 0
  failures : Nat := 0
  deriving Repr, DecidableEq

/-- The context argument of `recommendStrategy`, with its defaults. -/
structure RecContext where
  networkSpeed : String := "unknown"
  previousFailures : Nat := 0
  timeOfDay : Int := 0
  isVpnDetected : Bool := false
  deriving Repr, DecidableEq

/-- Empirical success rate `stats.successes / stats.attempts`
(0 when there are no attempts, matching the guarded use). -/
def rate (c : Counters) : ℚ := (c.successes : ℚ) / (c.attempts : ℚ)

/-- The `for … of Object.entries(performance)` loop of
`recommendStrategy` (src/unnamed/part_001:94-106), carrying
`(bestStrategy, bestSuccessRate)`. -/
def bestAux : List (String × Counters) → String × ℚ → String × ℚ
  | [], acc => acc
  | e :: rest, acc =>
    bestAux rest
      (if 0 < e.2.attempts ∧ rate e.2 > acc.2 then (e.1, rate e.2) else acc)

/-- The history-based fallback choice, starting from
`bestStrategy = 'standard'`, `bestSuccessRate = 0`. -/
def bestByPerformance (perf : List (String × Counters)) : String :=
  (bestAux perf ("standard", 0)).1

/-- JS `recommendStrategy` (src/unnamed/part_001:84-123). -/
def recommendStrategy (ctx : RecContext)
    (perf : List (String × Counters)) : String :=
  let best := bestByPerformance perf
  if ctx.previousFailures > 3 then "aggressive"
  else if ctx.isVpnDetected || ctx.networkSpeed == "slow" then "smart"
  else if 9 ≤ ctx.timeOfDay ∧ ctx.timeOfDay ≤ 17 then "smart"
  else best

/-- Modelled from the spec's wording of the fallback rule: "the profile
with the highest historical empirical success rate recorded in
StrategyStats (ties broken by declaration order, default `standard` if
no history)" — the first recorded entry with at least one attempt
attaining the maximum rate, `standard` only when no history exists. -/
def specFallback (perf : List (String × Counters)) : String :=
  let hist := perf.filter (fun e => 0 < e.2.attempts)
  match hist with
  | [] => "standard"
  | h :: t =>
    let m := (t.map (fun e => rate e.2)).foldl max (rate h.2)
    (((h :: t).find? (fun e => rate e.2 == m)).map (·.1)).getD "standard"

/-- Modelled from the spec: `recommendStrategy` as the claim words it,
with the spec's fallback rule in the final branch. -/
def recommendStrategySpec (ctx : RecContext)
    (perf : List (String × Counters)) : String :=
  if ctx.previousFailures > 3 then "aggressive"
  else if ctx.isVpnDetected || ctx.networkSpeed == "slow" then "smart"
  else if 9 ≤ ctx.timeOfDay ∧ ctx.timeOfDay ≤ 17 then "smart"
  else specFallback perf

/-! ### The retry wrapper (src/js/utils.js:444-454) and the transient
table (src/js/outlookRegistration.js:582-591) -/

/-- The `for (let i = 0; i < maxRetries; i++)` loop of `Utils.retry`,
with the collaborator determinized per attempt index. Returns the
outcome (`none` models the `undefined` fall-through when the loop count
is zero), the number of collaborator invocations, and the backoff
delays awaited (`delay * (i + 1)` after failed attempt `i + 1`). -/
def retryLoop {ε β : Type} (fn : Nat → Except ε β) (base : Nat) :
    Nat → Nat → Except ε (Option β) × Nat × List Nat
  | 0, _ => (.ok none, 0, [])
  | r + 1, i =>
    match fn i with
    | .ok v => (.ok (some v), 1, [])
    | .error e =>
      if r = 0 then (.error e, 1, [])
      else
        let res := retryLoop fn base r (i + 1)
        (res.1, res.2.1 + 1, base * (i + 1) :: res.2.2)

/-- JS `Utils.retry(fn, maxRetries, delay)` (src/js/utils.js:444-454). -/
def retry {ε β : Type} (fn : Nat → Except ε β) (maxRetries base : Nat) :
    Except ε (Option β) × Nat × List Nat :=
  retryLoop fn base maxRetries 0

/-- JS `retryableErrors` of `shouldRetry`
(src/js/outlookRegistration.js:583-587): the fixed message-substring
table identifying transient network/server/timeout errors. -/
def retryableErrors : List String :=
  ["网络连接失败", "服务器暂时不可用", "请求超时"]

/-- JS `String.prototype.includes`. -/
def strIncludes (s sub : String) : Bool :=
  (List.range (s.data.length + 1)).any
    (fun i => sub.data.isPrefixOf (s.data.drop i))

/-- The substring test of `shouldRetry`:
`retryableErrors.some(msg => error.message.includes(msg))`. -/
def isTransientError (message : String) : Bool :=
  retryableErrors.any (fun m => strIncludes message m)

/-! ### Pipeline execution (src/unnamed/part_001:268-301) -/

/-- An observable event of a pipeline run: a timer suspension of the
given duration, or the execution of the named step. -/
inductive TraceEv where
  | delayEv : Nat → TraceEv
  | stepRun : String → TraceEv
  deriving Repr, DecidableEq

/-- A pipeline step `{name, action}`; the action receives the previous
step's output (`none` for the first step) and may throw. -/
structure PStep (α ε : Type) where
  name : String
  action : Option α → Except ε α

/-- JS `Utils.randomDelay(min, max)` (src/js/utils.js:180-183) waits
`Math.floor(Math.random() * (max - min + 1)) + min` ms; the random draw
is determinized into `r`, every value of which yields a duration in
`[min, max]` when `min ≤ max`. -/
def randomDelayAmt (r minv maxv : Nat) : Nat :=
  r % (maxv - minv + 1) + minv

/-- The `for` loop of `executeSteps` from step index `i` with the
accumulated `result` as `input`: before each step with index `> 0` a
humanlike delay is awaited when configured, then the step's action runs
on the previous output; a throw aborts the loop with that error. The
returned trace records suspensions and executed steps in order. -/
def executeStepsFrom {α ε : Type} (cfg : StrategyConfig) (rng : Nat → Nat) :
    List (PStep α ε) → Nat → Option α → Except ε (Option α) × List TraceEv
  | [], _, input => (.ok input, [])
  | s :: rest, i, input =>
    let dtr : List TraceEv :=
      if cfg.humanLikeDelay ∧ 0 < i then
        [.delayEv (randomDelayAmt (rng i) cfg.delayRange.1 cfg.delayRange.2)]
      else []
    match s.action input with
    | .error e => (.error e, dtr ++ [.stepRun s.name])
    | .ok v =>
      let res := executeStepsFrom cfg rng rest (i + 1) (some v)
      (res.1, dtr ++ .stepRun s.name :: res.2)

/-- JS `executeSteps(steps, config)` (src/unnamed/part_001:268-301):
run from step 0 with `result = null`. -/
def executeSteps {α ε : Type} (cfg : StrategyConfig) (rng : Nat → Nat)
    (steps : List (PStep α ε)) : Except ε (Option α) × List TraceEv :=
  executeStepsFrom cfg rng steps 0 none

/-- Count of delay events in a trace. -/
def countDelay (tr : List TraceEv) : Nat :=
  tr.countP (fun t => match t with | .delayEv _ => true | _ => false)

/-- Count of executed-step events in a trace. -/
def countRun (tr : List TraceEv) : Nat :=
  tr.countP (fun t => match t with | .stepRun _ => true | _ => false)

/-! ### Registration pipeline data (src/unnamed/part_001:180-850)

Randomness (`Math.random()` draws), timestamps and browser-derived
strings are determinized into an explicit `Oracle` record: each oracle
field stands for one random draw or environment read of the source. -/

/-- The form-data object read from the 8 tracked fields (plus optional
phone fields referenced by `prepareRequest`). -/
structure FormData where
  firstName : String := ""
  lastName : String := ""
  desiredEmail : String := ""
  password : String := ""
  birthYear : String := ""
  birthMonth : String := ""
  birthDay : String := ""
  country : String := ""
  phone : Option String := none
  phoneCountry : String := ""
  deriving Repr, DecidableEq

/-- The request payload built by `prepareRequest`
(src/unnamed/part_001:581-600). -/
structure RequestData where
  email : String
  password : String
  firstName : String
  lastName : String
  birthDate : String
  country : String
  phone : Option String
  userAgent : String
  timestamp : Nat
  clientId : Option String
  sessionId : Option String
  deriving Repr, DecidableEq

/-- A submission collaborator's response. -/
structure SubmitResponse where
  success : Bool
  email : String
  message : String
  verificationRequired : Bool
  deriving Repr, DecidableEq

/-- The final result built by `finalizeRegistration`
(src/unnamed/part_001:779-795). -/
structure RegResult where
  success : Bool
  email : String
  password : String
  message : String
  timestamp : String
  deriving Repr, DecidableEq

/-- The value flowing between pipeline steps (each step's JS return
value). -/
inductive PVal where
  | vValid (fd : FormData)
  | vQuick
  | vReq (r : RequestData)
  | vResp (r : SubmitResponse)
  | vFinal (r : RegResult)
  deriving Repr, DecidableEq

/-- Determinized environment: one field per random draw, clock read or
browser-environment read of the source. `smartRun` stands for the whole
smart-pipeline outcome (`executeSmartStrategy`), which depends on
browser environment detection (`navigator`, `screen`, time zone) and is
therefore supplied as an input; no claim below depends on its
internals. -/
structure Oracle where
  rng : Nat → Nat := fun _ => 0
  ua : String := ""
  uaVar : Nat → String := fun _ => ""
  ts : Nat := 0
  uuid : String := ""
  sess : String := ""
  submitOk : Bool := true
  submitVerif : Bool := false
  submitErr : Nat := 0
  nowIso : String := ""
  suffix : Nat → Nat := fun _ => 0
  names : Nat → String × String := fun _ => ("", "")
  aggrOk : Nat → Bool := fun _ => true
  settle : Nat → Nat := fun _ => 0
  smartRun : Except String (Option PVal) × List (List TraceEv) :=
    (.ok none, [])

/-- The required-field scan of `validateFormData`
(src/unnamed/part_001:309-310), in the source's order. -/
def missingFields (fd : FormData) : List String :=
  (if fd.desiredEmail = "" then ["desired-email"] else []) ++
  (if fd.password = "" then ["password"] else []) ++
  (if fd.firstName = "" then ["first-name"] else []) ++
  (if fd.lastName = "" then ["last-name"] else []) ++
  (if fd.country = "" then ["country"] else [])

/-- JS `validateFormData` (src/unnamed/part_001:308-328): missing required
fields, then email length ≥ 3, then the password must not be weak. -/
def validateFormData (fd : FormData) : Except String FormData :=
  if missingFields fd ≠ [] then
    .error ("缺少必填字段: " ++ String.intercalate ", " (missingFields fd))
  else if fd.desiredEmail.length < 3 then
    .error "邮箱名长度不足"
  else if (checkPasswordStrength fd.password).level = "weak" then
    .error "密码强度不足"
  else .ok fd

/-- JS `prepareRequest` (src/unnamed/part_001:581-600). -/
def prepareRequest (fd : FormData) (config : StrategyConfig)
    (o : Oracle) : RequestData :=
  { email := fd.desiredEmail ++ "@outlook.com"
    password := fd.password
    firstName := fd.firstName
    lastName := fd.lastName
    birthDate := fd.birthYear ++ "-" ++ fd.birthMonth ++ "-" ++ fd.birthDay
    country := fd.country
    phone := match fd.phone with
      | some p => if p = "" then none else some (fd.phoneCountry ++ p)
      | none => none
    userAgent := o.ua
    timestamp := o.ts
    clientId := if config.randomizeData then some o.uuid else none
    sessionId := if config.randomizeData then some o.sess else none }

/-- The simulated failure messages of `submitRegistration`
(src/unnamed/part_001:707-713). -/
def submitErrors : List String :=
  ["邮箱已存在", "网络连接超时", "服务器暂时不可用", "验证码错误", "请求频率过高"]

/-- JS `submitRegistration` (src/unnamed/part_001:690-716), with the
success draw and error pick determinized. -/
def submitRegistration (req : RequestData) (_config : StrategyConfig)
    (o : Oracle) : Except String SubmitResponse :=
  if o.submitOk then
    .ok { success := true, email := req.email, message := "注册成功",
          verificationRequired := o.submitVerif }
  else
    .error (submitErrors.getD (o.submitErr % submitErrors.length) "")

/-- JS `validateResponse` (src/unnamed/part_001:762-772):
`response.message || '注册失败'` on failure. -/
def validateResponse (resp : SubmitResponse) : Except String SubmitResponse :=
  if !resp.success then
    .error (if resp.message = "" then "注册失败" else resp.message)
  else .ok resp

/-- JS `finalizeRegistration` (src/unnamed/part_001:779-795):
`password: this.currentFormData?.password || '****'`. -/
def finalizeRegistration (currentFormData : Option FormData)
    (data : SubmitResponse) (o : Oracle) : RegResult :=
  { success := true
    email := data.email
    password := match currentFormData with
      | some f => if f.password = "" then "****" else f.password
      | none => "****"
    message := data.message
    timestamp := o.nowIso }

/-- The five standard-pipeline steps (src/unnamed/part_001:181-187).
A value of the wrong shape reaching a step models the TypeError the JS
would raise there; it never occurs in an actual run. -/
def standardSteps (fd : FormData) (config : StrategyConfig)
    (cur : Option FormData) (o : Oracle) : List (PStep PVal String) :=
  [⟨"验证参数", fun _ => (validateFormData fd).map PVal.vValid⟩,
   ⟨"准备请求", fun _ => .ok (PVal.vReq (prepareRequest fd config o))⟩,
   ⟨"提交注册", fun pv =>
      match pv with
      | some (PVal.vReq r) => (submitRegistration r config o).map PVal.vResp
      | _ => .error "类型错误"⟩,
   ⟨"验证结果", fun pv =>
      match pv with
      | some (PVal.vResp r) => (validateResponse r).map PVal.vResp
      | _ => .error "类型错误"⟩,
   ⟨"完成注册", fun pv =>
      match pv with
      | some (PVal.vResp r) =>
        .ok (PVal.vFinal (finalizeRegistration cur r o))
      | _ => .error "类型错误"⟩]

/-- JS `executeStandardStrategy` (src/unnamed/part_001:180-190). -/
def executeStandardStrategy (fd : FormData) (config : StrategyConfig)
    (cur : Option FormData) (o : Oracle) :
    Except String (Option PVal) × List TraceEv :=
  executeSteps config o.rng (standardSteps fd config cur o)

/-- JS `quickValidate` (src/unnamed/part_001:830-836). -/
def quickValidate (fd : FormData) : Except String Unit :=
  if fd.desiredEmail = "" ∨ fd.password = "" then .error "缺少关键字段"
  else .ok ()

/-- JS `generateDataVariants` (src/unnamed/part_001:803-823): every
variant's email gets a random numeric suffix (`< 1000`); variants after
the first also get freshly generated name pairs. -/
def generateDataVariants (fd : FormData) (count : Nat) (o : Oracle) :
    List FormData :=
  (List.range count).map (fun i =>
    let variant :=
      { fd with desiredEmail :=
          fd.desiredEmail ++ toString (o.suffix i % 1000) }
    if 0 < i then
      { variant with
          firstName := (o.names i).1
          lastName := (o.names i).2 }
    else variant)

/-- JS `prepareAggressiveRequest` (src/unnamed/part_001:626-640): the base
request with the per-index variation applied
(`variations[index % variations.length]`). -/
def prepareAggressiveRequest (fd : FormData) (config : StrategyConfig)
    (index : Nat) (o : Oracle) : RequestData :=
  let rd := prepareRequest fd config o
  { rd with
      userAgent := o.uaVar index
      country := ["US", "CA", "GB"].getD (index % 3) "" }

/-- JS `submitRegistrationAggressive` (src/unnamed/part_001:738-755),
success draw determinized per variant. -/
def submitRegistrationAggressive (req : RequestData) (index : Nat)
    (o : Oracle) : Except String SubmitResponse :=
  if o.aggrOk index then
    .ok { success := true, email := req.email,
          message := "注册成功（激进模式）", verificationRequired := false }
  else .error "注册失败（激进模式）"

/-- The five aggressive mini-pipeline steps
(src/unnamed/part_001:239-245). -/
def aggressiveSteps (variant : FormData) (config : StrategyConfig)
    (index : Nat) (cur : Option FormData) (o : Oracle) :
    List (PStep PVal String) :=
  [⟨"快速验证", fun _ => (quickValidate variant).map (fun _ => PVal.vQuick)⟩,
   ⟨"准备请求", fun _ =>
      .ok (PVal.vReq (prepareAggressiveRequest variant config index o))⟩,
   ⟨"提交注册", fun pv =>
      match pv with
      | some (PVal.vReq r) =>
        (submitRegistrationAggressive r index o).map PVal.vResp
      | _ => .error "类型错误"⟩,
   ⟨"验证结果", fun pv =>
      match pv with
      | some (PVal.vResp r) => (validateResponse r).map PVal.vResp
      | _ => .error "类型错误"⟩,
   ⟨"完成注册", fun pv =>
      match pv with
      | some (PVal.vResp r) =>
        .ok (PVal.vFinal (finalizeRegistration cur r o))
      | _ => .error "类型错误"⟩]

/-- The settle loop of `Promise.any`: remember the earliest fulfilled
promise (ties impossible on one event loop; an earlier entry wins a
tie here). -/
def promiseAnyAux {β : Type} :
    List (Except String β × Nat) → Option (β × Nat) → Option (β × Nat)
  | [], acc => acc
  | p :: rest, acc =>
    promiseAnyAux rest
      (match p.1 with
       | .ok v =>
         match acc with
         | none => some (v, p.2)
         | some (w, t) => if p.2 < t then some (v, p.2) else some (w, t)
       | .error _ => acc)

/-- JS `Promise.any(attempts)` over settled outcomes with settle times:
the earliest fulfilled promise's value, or an `AggregateError` when
every promise rejects. -/
def promiseAny {β : Type} (xs : List (Except String β × Nat)) :
    Except String β :=
  match promiseAnyAux xs none with
  | some (v, _) => .ok v
  | none => .error "All promises were rejected"

/-- JS `executeAggressiveStrategy` (src/unnamed/part_001:228-259):
3 data variants, each run through its mini-pipeline (concurrently in
the source; here each attempt's settled outcome and settle time), raced
with `Promise.any`. Returns the race result and the per-variant
traces. -/
def executeAggressiveStrategy (fd : FormData) (config : StrategyConfig)
    (cur : Option FormData) (o : Oracle) :
    Except String (Option PVal) × List (List TraceEv) :=
  let dataVariants := generateDataVariants fd 3 o
  let attempts := dataVariants.enum.map (fun iv =>
    (executeSteps config o.rng (aggressiveSteps iv.2 config iv.1 cur o),
      o.settle iv.1))
  (promiseAny (attempts.map (fun a => (a.1.1, a.2))),
    attempts.map (fun a => a.1.2))

/-! ### Strategy statistics and `executeStrategy`
(src/unnamed/part_001:52-57, 131-172, 842-850) -/

/-- The module-level `stats` object. -/
structure StrategyStats where
  attempts : Nat := 0
  successes : Nat := 0
  failures : Nat := 0
  strategyPerformance : List (String × Counters) := []
  deriving Repr, DecidableEq

/-- The mutable module state of `RegistrationStrategies`. -/
structure ModuleState where
  currentStrategy : String := "standard"
  stats : StrategyStats := {}
  currentFormData : Option FormData := none
  deriving Repr, DecidableEq

/-- Lookup `stats.strategyPerformance[name]`. -/
def perfGet : List (String × Counters) → String → Option Counters
  | [], _ => none
  | e :: rest, k => if e.1 = k then some e.2 else perfGet rest k

/-- JS `initializeStrategyStats` (src/unnamed/part_001:842-850): create a
zeroed bucket when the name has none. -/
def initializeStrategyStats (perf : List (String × Counters))
    (strategy : String) : List (String × Counters) :=
  match perfGet perf strategy with
  | some _ => perf
  | none => perf ++ [(strategy, {})]

/-- In-place counter update of one bucket. -/
def perfUpdate : List (String × Counters) → String →
    (Counters → Counters) → List (String × Counters)
  | [], _, _ => []
  | e :: rest, k, f =>
    if e.1 = k then (e.1, f e.2) :: perfUpdate rest k f
    else e :: perfUpdate rest k f

/-- JS `executeStrategy` (src/unnamed/part_001:131-172): bump the global
and per-name attempt counters (creating the bucket first), dispatch on
the strategy name (an unrecognized name throws `未知策略` before any
pipeline), then bump success or failure counters and return or
rethrow. Returns the outcome, the pipeline traces (one per concurrent
attempt; empty when no pipeline ran) and the updated module state. -/
def executeStrategy (st : ModuleState) (fd : FormData)
    (strategy : String) (o : Oracle) :
    Except String (Option PVal) × List (List TraceEv) × ModuleState :=
  let config := getStrategy strategy
  let stats1 := { st.stats with attempts := st.stats.attempts + 1 }
  let perf1 := initializeStrategyStats stats1.strategyPerformance strategy
  let perf2 := perfUpdate perf1 strategy
    (fun c => { c with attempts := c.attempts + 1 })
  let stats2 := { stats1 with strategyPerformance := perf2 }
  let run : Except String (Option PVal) × List (List TraceEv) :=
    if strategy = "standard" then
      let r := executeStandardStrategy fd config st.currentFormData o
      (r.1, [r.2])
    else if strategy = "smart" then
      o.smartRun
    else if strategy = "aggressive" then
      executeAggressiveStrategy fd config st.currentFormData o
    else
      (.error ("未知策略: " ++ strategy), [])
  match run.1 with
  | .ok v =>
    let stats3 := { stats2 with
      successes := stats2.successes + 1,
      strategyPerformance := perfUpdate stats2.strategyPerformance strategy
        (fun c => { c with successes := c.successes + 1 }) }
    (.ok v, run.2, { st with stats := stats3 })
  | .error e =>
    let stats3 := { stats2 with
      failures := stats2.failures + 1,
      strategyPerformance := perfUpdate stats2.strategyPerformance strategy
        (fun c => { c with failures := c.failures + 1 }) }
    (.error e, run.2, { st with stats := stats3 })

/-- JS `submitRegistrationWithRetry` (src/unnamed/part_001:724-730):
the submission collaborator wrapped in `Utils.retry` with
`config.retryCount` attempts and base delay 2000. -/
def submitRegistrationWithRetry
    (submitAttempt : Nat → Except String SubmitResponse)
    (config : StrategyConfig) :
    Except String (Option SubmitResponse) × Nat × List Nat :=
  retry submitAttempt config.retryCount 2000

/-- The end-to-end scenario's input form. -/
def c6Form : FormData :=
  { firstName := "Alex", lastName := "Smith",
    desiredEmail := "alexsmith01", password := "Abc12345!",
    birthYear := "1995", birthMonth := "04", birthDay := "12",
    country := "US" }

/-- The settled outcome of the `index`-th aggressive variant's
mini-pipeline (the promise raced by `Promise.any`). -/
def aggressiveAttemptOutcome (fd : FormData) (config : StrategyConfig)
    (cur : Option FormData) (o : Oracle) (i : Nat) :
    Except String (Option PVal) :=
  (executeSteps config o.rng
    (aggressiveSteps ((generateDataVariants fd 3 o).getD i {}) config i
      cur o)).1

/-- Test fixture: an environment in which only variant 1 succeeds, and
variant 1 settles first. -/
def c4Oracle : Oracle :=
  { aggrOk := fun i => i == 1,
    settle := fun i => if i == 1 then 0 else 5 }

/-- Test fixture: a submission collaborator failing with a transient
error on the first two attempts, then succeeding. -/
def c7Submit : Nat → Except String SubmitResponse := fun i =>
  if i < 2 then .error "网络连接超时"
  else .ok
    { success := true
      email := "e@outlook.com"
      message := "注册成功"
      verificationRequired := false }

/-! ## Theorems -/

theorem objGet_objSet_self (o : Obj) (k v : String)
    (h : (objGet o k).isSome) : objGet (objSet o k v) k = some v := by
  induction o with
  | nil => simp [objGet] at h
  | cons hd tl ih =>
    by_cases hk : hd.1 = k
    · simp [objGet, objSet, hk]
    · simp only [objGet, objSet, if_neg hk] at *
      exact ih h

theorem objGet_objSet_ne (o : Obj) (k v k' : String)
    (h : k' ≠ k) : objGet (objSet o k v) k' = objGet o k' := by
  induction o with
  | nil => rfl
  | cons hd tl ih =>
    by_cases hk : hd.1 = k
    · have hne : ¬hd.1 = k' := fun hh => h (hh ▸ hk)
      simp only [objSet, if_pos hk, objGet]
      rw [if_neg hne, if_neg hne, ih]
    · by_cases he : hd.1 = k'
      · simp only [objSet, if_neg hk, objGet, if_pos he]
      · simp only [objSet, if_neg hk, objGet, if_neg he]
        exact ih

theorem restorable_congr (S o o' : Obj) (f : String)
    (h : objGet o f = objGet o' f) :
    restorable S o f = restorable S o' f := by
  simp [restorable, h]

theorem restorable_saved_some (S live : Obj) (f : String)
    (h : restorable S live f = true) :
    ∃ v, objGet S f = some v ∧ ¬jsTrim v = "" := by
  rcases hS : objGet S f with _ | v
  · simp [restorable, hS] at h
  · refine ⟨v, rfl, ?_⟩
    simp [restorable, hS] at h
    exact h.2

/-- Invariant of the `forEach` loop of `restoreAllValues`: over a
duplicate-free field list, every restorable field ends up holding its
saved value, every other field keeps its live value, and the counter
gains exactly the number of restorable fields. -/
theorem restore_foldl_spec (S : Obj) :
    ∀ (fs : List String), fs.Nodup → ∀ (live : Obj) (c : Nat),
      (∀ f ∈ fs, objGet (fs.foldl (restoreStep S) (live, c)).1 f =
         if restorable S live f then objGet S f else objGet live f)
      ∧ (∀ f, f ∉ fs →
          objGet (fs.foldl (restoreStep S) (live, c)).1 f = objGet live f)
      ∧ (fs.foldl (restoreStep S) (live, c)).2 =
          c + (fs.filter (restorable S live)).length := by
  intro fs
  induction fs with
  | nil => intro _ live c; refine ⟨by simp, by simp, by simp⟩
  | cons f fs ih =>
    intro hnd live c
    have hf_not : f ∉ fs := (List.nodup_cons.mp hnd).1
    have hnd' : fs.Nodup := (List.nodup_cons.mp hnd).2
    by_cases hr : restorable S live f = true
    · -- the head field is written back
      obtain ⟨v, hv, hvt⟩ := restorable_saved_some S live f hr
      have hsome : (objGet live f).isSome := by
        simp [restorable] at hr; exact hr.1
      have hstep : restoreStep S (live, c) f =
          (objSet live f v, c + 1) := by
        simp [restoreStep, hr, hv]
      have hself : objGet (objSet live f v) f = some v :=
        objGet_objSet_self live f v hsome
      have hother : ∀ g, g ≠ f → objGet (objSet live f v) g = objGet live g :=
        fun g hg => objGet_objSet_ne live f v g hg
      have hcong : ∀ g ∈ fs, restorable S (objSet live f v) g =
          restorable S live g := by
        intro g hg
        exact restorable_congr S _ _ g (hother g (fun he => hf_not (he ▸ hg)))
      obtain ⟨ih1, ih2, ih3⟩ := ih hnd' (objSet live f v) (c + 1)
      refine ⟨?_, ?_, ?_⟩
      · intro g hg
        rcases List.mem_cons.mp hg with hgf | hgfs
        · subst hgf
          rw [List.foldl_cons, hstep, ih2 g hf_not, hself, if_pos hr, hv]
        · rw [List.foldl_cons, hstep, ih1 g hgfs, hcong g hgfs,
            hother g (fun he => hf_not (he ▸ hgfs))]
      · intro g hg
        have hgf : g ≠ f := fun he => hg (he ▸ List.mem_cons_self f fs)
        have hgfs : g ∉ fs := fun hh => hg (List.mem_cons_of_mem f hh)
        rw [List.foldl_cons, hstep, ih2 g hgfs, hother g hgf]
      · rw [List.foldl_cons, hstep, ih3,
          List.filter_congr hcong, List.filter_cons_of_pos hr]
        simp [Nat.add_comm, Nat.add_assoc, Nat.add_left_comm]
    · -- the head field is skipped
      have hr' : restorable S live f = false := by
        simpa using hr
      have hstep : restoreStep S (live, c) f = (live, c) := by
        simp [restoreStep, hr']
      obtain ⟨ih1, ih2, ih3⟩ := ih hnd' live c
      refine ⟨?_, ?_, ?_⟩
      · intro g hg
        rcases List.mem_cons.mp hg with hgf | hgfs
        · subst hgf
          rw [List.foldl_cons, hstep, ih2 g hf_not, if_neg (by simp [hr'])]
        · rw [List.foldl_cons, hstep, ih1 g hgfs]
      · intro g hg
        have hgfs : g ∉ fs := fun hh => hg (List.mem_cons_of_mem f hh)
        rw [List.foldl_cons, hstep, ih2 g hgfs]
      · rw [List.foldl_cons, hstep, ih3, List.filter_cons_of_neg (by simp [hr'])]

theorem protectedFields_nodup : protectedFields.Nodup := by decide

/-- C1, amended: after `setSavedData S`, `restoreAllValues` writes every
live tracked field whose saved value is non-blank after trimming back to
that saved value, leaves every other field untouched, counts exactly the
restorable fields, and returns the Boolean `restoredCount > 0` (not the
integer count). -/
theorem setSavedData_restoreAll_spec (S live : Obj) :
    (∀ f ∈ protectedFields, ∀ v, (objGet live f).isSome →
        objGet (setSavedData S) f = some v → ¬jsTrim v = "" →
        objGet (restoreAllValues (setSavedData S) live).1 f = some v)
    ∧ (∀ f ∈ protectedFields, restorable (setSavedData S) live f = false →
        objGet (restoreAllValues (setSavedData S) live).1 f = objGet live f)
    ∧ (∀ f, f ∉ protectedFields →
        objGet (restoreAllValues (setSavedData S) live).1 f = objGet live f)
    ∧ (restoreAllValues (setSavedData S) live).2 =
        (protectedFields.filter (restorable (setSavedData S) live)).length
    ∧ restoreAllValuesRet (setSavedData S) live =
        decide (0 < (restoreAllValues (setSavedData S) live).2) := by
  obtain ⟨h1, h2, h3⟩ :=
    restore_foldl_spec (setSavedData S) protectedFields protectedFields_nodup live 0
  refine ⟨?_, ?_, ?_, by simpa [restoreAllValues] using h3, ?_⟩
  · intro f hf v hsome hv hvt
    have hr : restorable (setSavedData S) live f = true := by
      simp [restorable, hsome, hv, hvt]
    have := h1 f hf
    rw [if_pos hr] at this
    rw [restoreAllValues, this, hv]
  · intro f hf hr
    have := h1 f hf
    rw [if_neg (by simp [hr])] at this
    rw [restoreAllValues, this]
  · intro f hf
    exact h2 f hf
  · simp [restoreAllValuesRet, Nat.lt_iff_add_one_le]

/-- Concrete witness for `setSavedData_restoreAll_spec`: a snapshot with
one non-blank value over an all-empty live form restores that one field
and counts 1. -/
theorem setSavedData_restoreAll_spec_witness :
    objGet (restoreAllValues
      (setSavedData [("first-name", "Alex")])
      [("first-name", ""), ("last-name", ""), ("desired-email", ""),
       ("password", ""), ("birth-year", ""), ("birth-month", ""),
       ("birth-day", ""), ("country", "")]).1 "first-name" = some "Alex"
    ∧ (restoreAllValues (setSavedData [("first-name", "Alex")])
      [("first-name", ""), ("last-name", ""), ("desired-email", ""),
       ("password", ""), ("birth-year", ""), ("birth-month", ""),
       ("birth-day", ""), ("country", "")]).2 = 1 := by
  have h := setSavedData_restoreAll_spec [("first-name", "Alex")]
    [("first-name", ""), ("last-name", ""), ("desired-email", ""),
     ("password", ""), ("birth-year", ""), ("birth-month", ""),
     ("birth-day", ""), ("country", "")]
  refine ⟨h.1 "first-name" (by decide) "Alex" (by decide) (by decide)
    (by decide), ?_⟩
  rw [h.2.2.2.1]
  decide

/-- C1, counterexample to the claim as stated: `restoreAllValues`
returns the same value (`true`) for runs that restore 1 field and
2 fields, so its return value is not the integer `restoredCount`. -/
theorem restoreAll_returns_bool_not_count :
    (restoreAllValues (setSavedData [("first-name", "Alex")])
      [("first-name", ""), ("last-name", ""), ("desired-email", ""),
       ("password", ""), ("birth-year", ""), ("birth-month", ""),
       ("birth-day", ""), ("country", "")]).2 = 1
    ∧ (restoreAllValues
        (setSavedData [("first-name", "Alex"), ("last-name", "Smith")])
      [("first-name", ""), ("last-name", ""), ("desired-email", ""),
       ("password", ""), ("birth-year", ""), ("birth-month", ""),
       ("birth-day", ""), ("country", "")]).2 = 2
    ∧ restoreAllValuesRet (setSavedData [("first-name", "Alex")])
      [("first-name", ""), ("last-name", ""), ("desired-email", ""),
       ("password", ""), ("birth-year", ""), ("birth-month", ""),
       ("birth-day", ""), ("country", "")]
      = restoreAllValuesRet
        (setSavedData [("first-name", "Alex"), ("last-name", "Smith")])
      [("first-name", ""), ("last-name", ""), ("desired-email", ""),
       ("password", ""), ("birth-year", ""), ("birth-month", ""),
       ("birth-day", ""), ("country", "")] := by
  decide

theorem totalCount_eq_eight (live : Obj)
    (hall : ∀ f ∈ protectedFields, (objGet live f).isSome) :
    totalCount live = 8 := by
  have h1 := hall "first-name" (by decide)
  have h2 := hall "last-name" (by decide)
  have h3 := hall "desired-email" (by decide)
  have h4 := hall "password" (by decide)
  have h5 := hall "birth-year" (by decide)
  have h6 := hall "birth-month" (by decide)
  have h7 := hall "birth-day" (by decide)
  have h8 := hall "country" (by decide)
  simp [totalCount, protectedFields, List.filter, h1, h2, h3, h4, h5, h6, h7, h8]

/-- C2: with all 8 tracked fields present, `checkFormCleared` is true
iff 5 or more live fields are blank after trimming and a valid snapshot
exists; with exactly 4 blank fields, or without a valid snapshot, it is
false. -/
theorem checkFormCleared_spec (saved live : Obj)
    (hall : ∀ f ∈ protectedFields, (objGet live f).isSome) :
    (hasValidSavedData saved = true →
      ((5 ≤ emptyCount live → checkFormCleared saved live = true)
        ∧ (emptyCount live = 4 → checkFormCleared saved live = false)))
    ∧ (hasValidSavedData saved = false → checkFormCleared saved live = false) := by
  have ht : totalCount live = 8 := totalCount_eq_eight live hall
  constructor
  · intro hv
    constructor
    · intro h5
      have hq : ((emptyCount live : ℚ) / (totalCount live : ℚ) > 1/2) := by
        rw [ht]
        have h5' : (5:ℚ) ≤ (emptyCount live : ℚ) := by exact_mod_cast h5
        rw [gt_iff_lt, show ((8:ℕ):ℚ) = 8 by norm_num,
          lt_div_iff₀ (by norm_num : (0:ℚ) < 8)]
        linarith
      simp only [checkFormCleared, Bool.and_eq_true, decide_eq_true_eq]
      exact ⟨hq, hv⟩
    · intro h4
      have hq : ¬((emptyCount live : ℚ) / (totalCount live : ℚ) > 1/2) := by
        rw [ht, h4]
        norm_num
      simp only [checkFormCleared]
      rw [decide_eq_false hq, Bool.false_and]
  · intro hv
    simp only [checkFormCleared]
    rw [hv, Bool.and_false]

/-- Concrete witness for `checkFormCleared_spec`: all 8 fields present,
5 blank, valid snapshot ⇒ degraded; same live form without a valid
snapshot ⇒ not degraded. -/
theorem checkFormCleared_spec_witness :
    checkFormCleared [("first-name", "Alex")]
      [("first-name", ""), ("last-name", ""), ("desired-email", ""),
       ("password", ""), ("birth-year", ""), ("birth-month", "04"),
       ("birth-day", "12"), ("country", "US")] = true
    ∧ checkFormCleared []
      [("first-name", ""), ("last-name", ""), ("desired-email", ""),
       ("password", ""), ("birth-year", ""), ("birth-month", "04"),
       ("birth-day", "12"), ("country", "US")] = false := by
  constructor
  · exact ((checkFormCleared_spec [("first-name", "Alex")]
      [("first-name", ""), ("last-name", ""), ("desired-email", ""),
       ("password", ""), ("birth-year", ""), ("birth-month", "04"),
       ("birth-day", "12"), ("country", "US")] (by decide)).1
      (by decide)).1 (by decide)
  · exact (checkFormCleared_spec []
      [("first-name", ""), ("last-name", ""), ("desired-email", ""),
       ("password", ""), ("birth-year", ""), ("birth-month", "04"),
       ("birth-day", "12"), ("country", "US")] (by decide)).2 (by decide)

/-- C9: when the restored birth month parses, the day option set is
regenerated for the restored month and year; a saved day above the
regenerated day count leaves the day value at the blank placeholder
(never clamped), while a valid saved day is re-applied; and
`restoreAllValues` schedules this fix-up exactly when a birth month is
saved. -/
theorem updateBirthDaysAndRestore_spec (saved : Obj) (dom : BirthDom)
    (currentYear : Int) (m : Int)
    (hm : parseIntJS dom.monthVal = some m) (hm0 : m ≠ 0) :
    (updateBirthDaysAndRestore saved dom currentYear).dayOptions =
      "" :: (List.range (daysInMonthJS
        (match parseIntJS dom.yearVal with
         | some y => if y = 0 then currentYear else y
         | none => currentYear) m)).map (fun d => padStart2 (toString (d + 1)))
    ∧ (∀ sd d, objGet saved "birth-day" = some sd → parseIntJS sd = some d →
        (daysInMonthJS
          (match parseIntJS dom.yearVal with
           | some y => if y = 0 then currentYear else y
           | none => currentYear) m : Int) < d →
        (updateBirthDaysAndRestore saved dom currentYear).dayVal = "")
    ∧ (∀ sd d, objGet saved "birth-day" = some sd → sd ≠ "" →
        parseIntJS sd = some d →
        d ≤ (daysInMonthJS
          (match parseIntJS dom.yearVal with
           | some y => if y = 0 then currentYear else y
           | none => currentYear) m : Int) →
        (updateBirthDaysAndRestore saved dom currentYear).dayVal = sd)
    ∧ (restoreSchedulesBirthFix saved = true ↔
        ∃ v, objGet saved "birth-month" = some v ∧ v ≠ "") := by
  unfold updateBirthDaysAndRestore
  rw [hm]
  simp only [if_neg hm0]
  refine ⟨?_, ?_, ?_, ?_⟩
  · rcases hd : objGet saved "birth-day" with _ | sd
    · simp
    · by_cases hc : savedDayOk sd (daysInMonthJS
          (match parseIntJS dom.yearVal with
           | some y => if y = 0 then currentYear else y
           | none => currentYear) m) = true
      · simp [hc]
      · simp [hc]
  · intro sd d hsd hpd hlt
    rw [hsd]
    have hc : savedDayOk sd (daysInMonthJS
        (match parseIntJS dom.yearVal with
         | some y => if y = 0 then currentYear else y
         | none => currentYear) m) = false := by
      unfold savedDayOk
      rw [hpd]
      have : ¬(d ≤ ((daysInMonthJS
          (match parseIntJS dom.yearVal with
           | some y => if y = 0 then currentYear else y
           | none => currentYear) m : Nat) : Int)) := by omega
      simp [this]
    simp [hc]
  · intro sd d hsd hne hpd hle
    rw [hsd]
    have hc : savedDayOk sd (daysInMonthJS
        (match parseIntJS dom.yearVal with
         | some y => if y = 0 then currentYear else y
         | none => currentYear) m) = true := by
      unfold savedDayOk
      rw [hpd]
      simp [hne, hle]
    simp [hc]
  · constructor
    · intro h
      rcases hb : objGet saved "birth-month" with _ | v
      · simp [restoreSchedulesBirthFix, hb] at h
      · refine ⟨v, rfl, ?_⟩
        simp [restoreSchedulesBirthFix, hb] at h
        exact h
    · rintro ⟨v, hb, hv⟩
      simp [restoreSchedulesBirthFix, hb, hv]

/-- Concrete witness for `updateBirthDaysAndRestore_spec`: restoring
month `02` of 1995 regenerates 28 day options, and the saved day `31`
is left unset. -/
theorem updateBirthDaysAndRestore_spec_witness :
    parseIntJS "02" = some 2 ∧ (2 : Int) ≠ 0
    ∧ (updateBirthDaysAndRestore
        [("birth-month", "02"), ("birth-day", "31")]
        ⟨"02", "1995", "31", []⟩ 2025).dayVal = ""
    ∧ (updateBirthDaysAndRestore
        [("birth-month", "02"), ("birth-day", "31")]
        ⟨"02", "1995", "31", []⟩ 2025).dayOptions.length = 29 := by
  have h := updateBirthDaysAndRestore_spec
    [("birth-month", "02"), ("birth-day", "31")]
    ⟨"02", "1995", "31", []⟩ 2025 2 (by decide) (by decide)
  refine ⟨by decide, by decide, ?_, ?_⟩
  · exact h.2.1 "31" 31 (by decide) (by decide) (by decide)
  · rw [h.1]
    decide

theorem checkPasswordStrength_score_eq (p : String) :
    (checkPasswordStrength p).score =
      scoreOf (len8Ok p) (len12Ok p) (hasLowerCh p) (hasUpperCh p)
        (hasDigitCh p) (hasSymbolCh p) := by
  by_cases h : p = ""
  · subst h; decide
  · simp only [checkPasswordStrength, if_neg h, scoreOf]

theorem checkPasswordStrength_level_eq (p : String) :
    (checkPasswordStrength p).level =
      (if (checkPasswordStrength p).score ≤ 2 then "weak"
       else if (checkPasswordStrength p).score ≤ 4 then "fair"
       else if (checkPasswordStrength p).score ≤ 5 then "good"
       else "strong") := by
  by_cases h : p = ""
  · subst h; decide
  · simp only [checkPasswordStrength, if_neg h]

theorem len12Ok_imp_len8Ok (p : String) (h : len12Ok p = true) :
    len8Ok p = true := by
  simp only [len8Ok, len12Ok, decide_eq_true_eq] at *
  omega

/-- C8: the strength score never decreases when one more of the five
named criteria (length ≥ 8, lowercase, uppercase, digit, symbol) is
satisfied; the level is "weak" exactly when the score is ≤ 2; and a
score of 3 is classified "fair". -/
theorem checkPasswordStrength_spec :
    (∀ p q : String, addsOneCriterion p q →
      (checkPasswordStrength p).score ≤ (checkPasswordStrength q).score)
    ∧ (∀ p : String,
        (checkPasswordStrength p).level = "weak" ↔
          (checkPasswordStrength p).score ≤ 2)
    ∧ (∀ p : String, (checkPasswordStrength p).score = 3 →
        (checkPasswordStrength p).level = "fair") := by
  refine ⟨?_, ?_, ?_⟩
  · intro p q h
    rw [checkPasswordStrength_score_eq p, checkPasswordStrength_score_eq q]
    have b1 : (if len12Ok p then 1 else 0) ≤ 1 := by
      cases len12Ok p <;> simp
    have b2 : (if len12Ok q then (1:ℕ) else 0) ≤ 1 := by
      cases len12Ok q <;> simp
    rcases h with ⟨h8, h8', hl, hu, hd, hs⟩ |
      ⟨h8, h12, hl, hl', hu, hd, hs⟩ |
      ⟨h8, h12, hl, hu, hu', hd, hs⟩ |
      ⟨h8, h12, hl, hu, hd, hd', hs⟩ |
      ⟨h8, h12, hl, hu, hd, hs, hs'⟩
    · have h12p : len12Ok p = false := by
        cases h12p : len12Ok p
        · rfl
        · rw [len12Ok_imp_len8Ok p h12p] at h8; cases h8
      simp only [scoreOf, h8, h8', h12p, hl, hu, hd, hs,
        Bool.false_eq_true, if_true, if_false]
      omega
    · simp only [scoreOf, h8, h12, hl, hl', hu, hd, hs,
        Bool.false_eq_true, if_true, if_false]
      omega
    · simp only [scoreOf, h8, h12, hl, hu, hu', hd, hs,
        Bool.false_eq_true, if_true, if_false]
      omega
    · simp only [scoreOf, h8, h12, hl, hu, hd, hd', hs,
        Bool.false_eq_true, if_true, if_false]
      omega
    · simp only [scoreOf, h8, h12, hl, hu, hd, hs, hs',
        Bool.false_eq_true, if_true, if_false]
      omega
  · intro p
    rw [checkPasswordStrength_level_eq p]
    by_cases h2 : (checkPasswordStrength p).score ≤ 2
    · simp [h2]
    · by_cases h4 : (checkPasswordStrength p).score ≤ 4
      · simp [h2, h4]
      · by_cases h5 : (checkPasswordStrength p).score ≤ 5
        · simp [h2, h4, h5]
        · simp [h2, h4, h5]
  · intro p h3
    rw [checkPasswordStrength_level_eq p, h3]
    norm_num

/-- Concrete witness for `checkPasswordStrength_spec`: adding an
uppercase letter to "abc" raises the score from 1 to 2, both "weak". -/
theorem checkPasswordStrength_spec_witness :
    addsOneCriterion "abc" "abcA"
    ∧ (checkPasswordStrength "abc").score ≤ (checkPasswordStrength "abcA").score
    ∧ ((checkPasswordStrength "Abc12345!").score = 5
        ∧ (checkPasswordStrength "Abc12345!").level = "good") := by
  have h : addsOneCriterion "abc" "abcA" := by
    unfold addsOneCriterion
    right; right; left
    refine ⟨by decide, by decide, by decide, by decide, by decide, by decide,
      by decide⟩
  exact ⟨h, checkPasswordStrength_spec.1 "abc" "abcA" h, by decide, by decide⟩

theorem rate_nonneg (c : Counters) : 0 ≤ rate c :=
  div_nonneg (Nat.cast_nonneg _) (Nat.cast_nonneg _)

theorem rate_pos_attempts (c : Counters) (h : 0 < rate c) :
    0 < c.attempts := by
  rcases Nat.eq_zero_or_pos c.attempts with h0 | h1
  · rw [rate, h0] at h
    norm_num at h
  · exact h1

theorem bestAux_fixed (l : List (String × Counters)) :
    ∀ acc : String × ℚ,
      (∀ e ∈ l, ¬(0 < e.2.attempts ∧ rate e.2 > acc.2)) →
      bestAux l acc = acc := by
  induction l with
  | nil => intro acc _; rfl
  | cons e rest ih =>
    intro acc h
    have he : ¬(0 < e.2.attempts ∧ rate e.2 > acc.2) :=
      h e (List.mem_cons_self e rest)
    rw [bestAux, if_neg he]
    exact ih acc (fun y hy => h y (List.mem_cons_of_mem e hy))

theorem bestAux_first_max (e : String × Counters) :
    ∀ (l₁ l₂ : List (String × Counters)) (acc : String × ℚ),
      0 < e.2.attempts → acc.2 < rate e.2 →
      (∀ y ∈ l₁, rate y.2 < rate e.2) →
      (∀ y ∈ l₂, rate y.2 ≤ rate e.2) →
      bestAux (l₁ ++ e :: l₂) acc = (e.1, rate e.2) := by
  intro l₁
  induction l₁ with
  | nil =>
    intro l₂ acc ha hacc _ h₂
    rw [List.nil_append, bestAux, if_pos ⟨ha, hacc⟩]
    exact bestAux_fixed l₂ (e.1, rate e.2)
      (fun y hy => fun ⟨_, hgt⟩ => absurd (h₂ y hy) (not_le.mpr hgt))
  | cons y l₁ ih =>
    intro l₂ acc ha hacc h₁ h₂
    rw [List.cons_append, bestAux]
    by_cases hy : 0 < y.2.attempts ∧ rate y.2 > acc.2
    · rw [if_pos hy]
      exact ih l₂ (y.1, rate y.2) ha
        (h₁ y (List.mem_cons_self y l₁))
        (fun z hz => h₁ z (List.mem_cons_of_mem y hz)) h₂
    · rw [if_neg hy]
      exact ih l₂ acc ha hacc
        (fun z hz => h₁ z (List.mem_cons_of_mem y hz)) h₂

/-- C5, amended: the rule cascade of `recommendStrategy` in source
order; the fallback returns the first recorded entry whose success rate
strictly exceeds every earlier entry's and is at least every later
entry's, provided that rate is strictly positive — and `standard`
whenever every recorded rate is zero (not only when no history exists). -/
theorem recommendStrategy_spec (ctx : RecContext)
    (perf : List (String × Counters)) :
    (ctx.previousFailures > 3 → recommendStrategy ctx perf = "aggressive")
    ∧ (ctx.previousFailures ≤ 3 →
        (ctx.isVpnDetected = true ∨ ctx.networkSpeed = "slow") →
        recommendStrategy ctx perf = "smart")
    ∧ (ctx.previousFailures ≤ 3 → ctx.isVpnDetected = false →
        ctx.networkSpeed ≠ "slow" →
        9 ≤ ctx.timeOfDay → ctx.timeOfDay ≤ 17 →
        recommendStrategy ctx perf = "smart")
    ∧ (ctx.previousFailures ≤ 3 → ctx.isVpnDetected = false →
        ctx.networkSpeed ≠ "slow" →
        ¬(9 ≤ ctx.timeOfDay ∧ ctx.timeOfDay ≤ 17) →
        recommendStrategy ctx perf = bestByPerformance perf)
    ∧ ((∀ e ∈ perf, rate e.2 = 0) → bestByPerformance perf = "standard")
    ∧ (∀ (l₁ l₂ : List (String × Counters)) (nm : String) (c : Counters),
        perf = l₁ ++ (nm, c) :: l₂ → 0 < rate c →
        (∀ y ∈ l₁, rate y.2 < rate c) →
        (∀ y ∈ l₂, rate y.2 ≤ rate c) →
        bestByPerformance perf = nm) := by
  refine ⟨?_, ?_, ?_, ?_, ?_, ?_⟩
  · intro h
    simp [recommendStrategy, h]
  · intro h3 hvs
    have hcond : (ctx.isVpnDetected || ctx.networkSpeed == "slow") = true := by
      rcases hvs with hv | hs
      · simp [hv]
      · simp [hs]
    simp [recommendStrategy, Nat.not_lt.mpr h3, hcond]
  · intro h3 hv hs h9 h17
    have hv' : ctx.isVpnDetected = false := hv
    simp [recommendStrategy, Nat.not_lt.mpr h3, hv', hs, h9, h17]
  · intro h3 hv hs hh
    simp [recommendStrategy, Nat.not_lt.mpr h3, hv, hs, hh]
  · intro hz
    exact congrArg Prod.fst (bestAux_fixed perf ("standard", 0)
      (fun e he => fun ⟨_, hgt⟩ => by
        rw [hz e he] at hgt
        exact absurd hgt (by norm_num)))
  · intro l₁ l₂ nm c hperf hpos h₁ h₂
    rw [bestByPerformance, hperf]
    have := bestAux_first_max (nm, c) l₁ l₂ ("standard", 0)
      (rate_pos_attempts c hpos) hpos h₁ h₂
    rw [this]

/-- Concrete witness for `recommendStrategy_spec`: with 4 previous
failures the recommendation is aggressive regardless of the rest of the
context, and a lone recorded entry with positive rate wins the
fallback. -/
theorem recommendStrategy_spec_witness :
    recommendStrategy
      { networkSpeed := "slow", previousFailures := 4, timeOfDay := 12,
        isVpnDetected := true } [] = "aggressive"
    ∧ bestByPerformance [("smart", ⟨2, 1, 1⟩)] = "smart" := by
  constructor
  · exact (recommendStrategy_spec
      { networkSpeed := "slow", previousFailures := 4, timeOfDay := 12,
        isVpnDetected := true } []).1 (by norm_num)
  · exact (recommendStrategy_spec { } [("smart", ⟨2, 1, 1⟩)]).2.2.2.2.2
      [] [] "smart" ⟨2, 1, 1⟩ rfl (by norm_num [rate])
      (by intro y hy; cases hy) (by intro y hy; cases hy)

/-- C5, counterexample to the claim as stated: with no environmental
trigger and a history containing only `aggressive` with 1 attempt and
0 successes, the code returns `standard`, while the spec's fallback
("the profile with the highest recorded empirical success rate") picks
`aggressive`. -/
theorem recommendStrategy_zero_rate_counterexample :
    recommendStrategy
      { networkSpeed := "fast", previousFailures := 0, timeOfDay := 20,
        isVpnDetected := false } [("aggressive", ⟨1, 0, 1⟩)] = "standard"
    ∧ recommendStrategySpec
      { networkSpeed := "fast", previousFailures := 0, timeOfDay := 20,
        isVpnDetected := false } [("aggressive", ⟨1, 0, 1⟩)] = "aggressive"
    ∧ "standard" ≠ "aggressive" := by
  have hrate : rate ⟨1, 0, 1⟩ = 0 := by
    norm_num [rate]
  refine ⟨?_, ?_, by decide⟩
  · simp [recommendStrategy, bestByPerformance, bestAux, hrate]
  · simp [recommendStrategySpec, specFallback, hrate]

theorem retryLoop_calls_le {ε β : Type} (fn : Nat → Except ε β)
    (base : Nat) : ∀ r i, (retryLoop fn base r i).2.1 ≤ r := by
  intro r
  induction r with
  | zero => intro i; simp [retryLoop]
  | succ r ih =>
    intro i
    rw [retryLoop]
    rcases fn i with e | v
    · by_cases hr : r = 0
      · simp [hr]
      · simp only [if_neg hr]
        exact Nat.succ_le_succ (ih (i + 1))
    · simp

theorem retryLoop_all_fail {ε β : Type} (fn : Nat → Except ε β)
    (base : Nat) :
    ∀ r i, 0 < r → (∀ j, j < r → ∃ e, fn (i + j) = .error e) →
      ∃ e, fn (i + r - 1) = .error e ∧
        retryLoop fn base r i =
          (.error e, r,
            (List.range (r - 1)).map (fun k => base * (i + k + 1))) := by
  intro r
  induction r with
  | zero => intro i h; cases h
  | succ r ih =>
    intro i _ hfail
    obtain ⟨e0, he0⟩ := hfail 0 (Nat.succ_pos r)
    rw [Nat.add_zero] at he0
    by_cases hr : r = 0
    · subst hr
      refine ⟨e0, by simpa using he0, ?_⟩
      rw [retryLoop, he0]
      simp
    · obtain ⟨e, he, hrec⟩ := ih (i + 1) (Nat.pos_of_ne_zero hr)
        (fun j hj => by
          have := hfail (j + 1) (Nat.succ_lt_succ hj)
          rwa [show i + (j + 1) = i + 1 + j by omega] at this)
      refine ⟨e, by rwa [show i + (r + 1) - 1 = i + 1 + r - 1 by omega], ?_⟩
      have hrange : (List.range (r + 1 - 1)).map
          (fun k => base * (i + k + 1)) =
          base * (i + 1) :: (List.range (r - 1)).map
            (fun k => base * (i + 1 + k + 1)) := by
        have h1 : r + 1 - 1 = (r - 1) + 1 := by omega
        rw [h1, List.range_succ_eq_map, List.map_cons, List.map_map]
        have hfg : ((fun k => base * (i + k + 1)) ∘ Nat.succ) =
            (fun k => base * (i + 1 + k + 1)) := by
          funext x
          simp only [Function.comp, Nat.succ_eq_add_one]
          ring
        rw [hfg]
      simp only [retryLoop, he0, if_neg hr, hrec, hrange]

theorem retryLoop_first_success {ε β : Type} (fn : Nat → Except ε β)
    (base : Nat) :
    ∀ k r i v, k < r → fn (i + k) = .ok v →
      (∀ j, j < k → ∃ e, fn (i + j) = .error e) →
      retryLoop fn base r i =
        (.ok (some v), k + 1,
          (List.range k).map (fun j => base * (i + j + 1))) := by
  intro k
  induction k with
  | zero =>
    intro r i v hk hv _
    obtain ⟨r', rfl⟩ := Nat.exists_eq_add_of_lt hk
    rw [Nat.add_zero] at hv
    rw [show 0 + r' + 1 = r' + 1 by omega]
    simp only [retryLoop, hv]
    simp
  | succ k ih =>
    intro r i v hk hv hfail
    obtain ⟨e0, he0⟩ := hfail 0 (Nat.succ_pos k)
    rw [Nat.add_zero] at he0
    obtain ⟨r', rfl⟩ := Nat.exists_eq_add_of_lt hk
    have hrec := ih (k + 1 + r') (i + 1) v (by omega)
      (by rwa [show i + 1 + k = i + (k + 1) by omega])
      (fun j hj => by
        have := hfail (j + 1) (Nat.succ_lt_succ hj)
        rwa [show i + (j + 1) = i + 1 + j by omega] at this)
    have hrange : (List.range (k + 1)).map (fun j => base * (i + j + 1)) =
        base * (i + 1) :: (List.range k).map
          (fun j => base * (i + 1 + j + 1)) := by
      rw [List.range_succ_eq_map, List.map_cons, List.map_map]
      have hfg : ((fun j => base * (i + j + 1)) ∘ Nat.succ) =
          (fun j => base * (i + 1 + j + 1)) := by
        funext x
        simp only [Function.comp, Nat.succ_eq_add_one]
        ring
      rw [hfg]
    rw [show k + 1 + r' + 1 = (k + 1 + r') + 1 by omega]
    simp only [retryLoop, he0, if_neg (show ¬(k + 1 + r' = 0) by omega),
      hrec, hrange]

theorem executeStepsFrom_append_ok {α ε : Type} (cfg : StrategyConfig)
    (rng : Nat → Nat) (l₂ : List (PStep α ε)) (v : Option α) :
    ∀ (l₁ : List (PStep α ε)) (i : Nat) (input : Option α)
      (tr : List TraceEv),
      executeStepsFrom cfg rng l₁ i input = (.ok v, tr) →
      executeStepsFrom cfg rng (l₁ ++ l₂) i input =
        ((executeStepsFrom cfg rng l₂ (i + l₁.length) v).1,
          tr ++ (executeStepsFrom cfg rng l₂ (i + l₁.length) v).2) := by
  intro l₁
  induction l₁ with
  | nil =>
    intro i input tr h
    rw [executeStepsFrom] at h
    injection h with h1 h2
    injection h1 with h1
    subst h1
    subst h2
    rfl
  | cons s l₁ ih =>
    intro i input tr h
    simp only [executeStepsFrom] at h
    rcases ha : s.action input with e | w <;> simp only [ha] at h
    · exact absurd (congrArg Prod.fst h) (by simp)
    · rcases hres : executeStepsFrom cfg rng l₁ (i + 1) (some w)
        with ⟨r1, tr1⟩
      simp only [hres] at h
      injection h with h1 h2
      subst h1
      subst h2
      simp only [List.cons_append, executeStepsFrom, ha, List.append_eq,
        ih (i + 1) (some w) tr1 hres]
      rw [show i + 1 + l₁.length = i + (s :: l₁).length from by
        simp [List.length_cons]; omega]
      simp [List.append_assoc]

theorem executeStepsFrom_append_err {α ε : Type} (cfg : StrategyConfig)
    (rng : Nat → Nat) (l₂ : List (PStep α ε)) (e : ε) :
    ∀ (l₁ : List (PStep α ε)) (i : Nat) (input : Option α)
      (tr : List TraceEv),
      executeStepsFrom cfg rng l₁ i input = (.error e, tr) →
      executeStepsFrom cfg rng (l₁ ++ l₂) i input = (.error e, tr) := by
  intro l₁
  induction l₁ with
  | nil =>
    intro i input tr h
    rw [executeStepsFrom] at h
    exact absurd (congrArg Prod.fst h) (by simp)
  | cons s l₁ ih =>
    intro i input tr h
    simp only [executeStepsFrom] at h
    rcases ha : s.action input with e' | w <;> simp only [ha] at h
    · simp only [List.cons_append, executeStepsFrom, ha]
      exact h
    · rcases hres : executeStepsFrom cfg rng l₁ (i + 1) (some w)
        with ⟨r1, tr1⟩
      simp only [hres] at h
      injection h with h1 h2
      subst h1
      subst h2
      simp only [List.cons_append, executeStepsFrom, ha, List.append_eq,
        ih (i + 1) (some w) tr1 hres]

theorem executeStepsFrom_delay_bounds {α ε : Type} (cfg : StrategyConfig)
    (rng : Nat → Nat) (hle : cfg.delayRange.1 ≤ cfg.delayRange.2) :
    ∀ (steps : List (PStep α ε)) (i : Nat) (input : Option α) (d : Nat),
      TraceEv.delayEv d ∈ (executeStepsFrom cfg rng steps i input).2 →
      cfg.delayRange.1 ≤ d ∧ d ≤ cfg.delayRange.2 := by
  have hbound : ∀ r, cfg.delayRange.1 ≤
      randomDelayAmt r cfg.delayRange.1 cfg.delayRange.2 ∧
      randomDelayAmt r cfg.delayRange.1 cfg.delayRange.2 ≤
        cfg.delayRange.2 := by
    intro r
    unfold randomDelayAmt
    have hmod : r % (cfg.delayRange.2 - cfg.delayRange.1 + 1) ≤
        cfg.delayRange.2 - cfg.delayRange.1 :=
      Nat.lt_succ_iff.mp (Nat.mod_lt _ (Nat.succ_pos _))
    omega
  intro steps
  induction steps with
  | nil =>
    intro i input d h
    rw [executeStepsFrom] at h
    cases h
  | cons s rest ih =>
    intro i input d h
    rw [executeStepsFrom] at h
    have hd : ∀ t, t ∈ (if cfg.humanLikeDelay ∧ 0 < i then
        [TraceEv.delayEv (randomDelayAmt (rng i)
          cfg.delayRange.1 cfg.delayRange.2)] else ([] : List TraceEv)) →
        t = TraceEv.delayEv d →
        cfg.delayRange.1 ≤ d ∧ d ≤ cfg.delayRange.2 := by
      intro t ht heq
      by_cases hc : cfg.humanLikeDelay ∧ 0 < i
      · rw [if_pos hc] at ht
        rcases List.mem_singleton.mp ht with rfl
        injection heq with heq
        exact heq ▸ hbound (rng i)
      · rw [if_neg hc] at ht
        cases ht
    rcases ha : s.action input with e | w <;> rw [ha] at h
    · simp only [List.mem_append] at h
      rcases h with h | h
      · exact hd _ h rfl
      · rcases List.mem_singleton.mp h
    · simp only [List.mem_append, List.mem_cons] at h
      rcases h with h | h | h
      · exact hd _ h rfl
      · cases h
      · exact ih (i + 1) (some w) d h

theorem executeStepsFrom_delay_count_pos {α ε : Type}
    (cfg : StrategyConfig) (rng : Nat → Nat)
    (hh : cfg.humanLikeDelay = true) :
    ∀ (steps : List (PStep α ε)) (i : Nat) (input : Option α), 1 ≤ i →
      countDelay (executeStepsFrom cfg rng steps i input).2 =
        countRun (executeStepsFrom cfg rng steps i input).2 := by
  intro steps
  induction steps with
  | nil => intro i input _; rfl
  | cons s rest ih =>
    intro i input hi
    rw [executeStepsFrom]
    have hc : cfg.humanLikeDelay ∧ 0 < i := ⟨hh, hi⟩
    rcases ha : s.action input with e | w
    · simp [ha, if_pos hc, countDelay, countRun]
    · have := ih (i + 1) (some w) (by omega)
      simp only [ha, if_pos hc]
      simp [countDelay, countRun, List.countP_append, List.countP_cons] at *
      omega

/-- C3: pipeline steps run strictly sequentially on the previous step's
output (the first step receiving none); a throwing step aborts the run
with exactly its error, executing no later step and yielding no value;
every humanlike delay awaited lies within the configured range; and
with `humanLikeDelay` set, the number of delays is exactly one fewer
than the number of executed steps. -/
theorem executeSteps_spec {α ε : Type} (cfg : StrategyConfig)
    (rng : Nat → Nat) :
    (∀ (pre post : List (PStep α ε)) (s : PStep α ε) (v : Option α)
       (tr : List TraceEv) (e : ε),
      executeStepsFrom cfg rng pre 0 none = (.ok v, tr) →
      s.action v = .error e →
      executeSteps cfg rng (pre ++ s :: post) =
        (.error e, tr ++
          (if cfg.humanLikeDelay ∧ 0 < pre.length then
            [TraceEv.delayEv (randomDelayAmt (rng pre.length)
              cfg.delayRange.1 cfg.delayRange.2)]
           else []) ++ [TraceEv.stepRun s.name]))
    ∧ (∀ (pre post : List (PStep α ε)) (s : PStep α ε) (v : Option α)
         (tr : List TraceEv) (w : α),
        executeStepsFrom cfg rng pre 0 none = (.ok v, tr) →
        s.action v = .ok w →
        (executeSteps cfg rng (pre ++ s :: post)).1 =
          (executeStepsFrom cfg rng post (pre.length + 1) (some w)).1)
    ∧ (cfg.delayRange.1 ≤ cfg.delayRange.2 →
        ∀ (steps : List (PStep α ε)) (d : Nat),
          TraceEv.delayEv d ∈ (executeSteps cfg rng steps).2 →
          cfg.delayRange.1 ≤ d ∧ d ≤ cfg.delayRange.2)
    ∧ (cfg.humanLikeDelay = true → ∀ steps : List (PStep α ε),
        countDelay (executeSteps cfg rng steps).2 =
          countRun (executeSteps cfg rng steps).2 - 1) := by
  refine ⟨?_, ?_, ?_, ?_⟩
  · intro pre post s v tr e hpre hs
    have hlen : 0 + pre.length = pre.length := by omega
    rw [executeSteps,
      executeStepsFrom_append_ok cfg rng (s :: post) v pre 0 none tr hpre]
    simp only [executeStepsFrom, hs, hlen]
    simp [List.append_assoc]
  · intro pre post s v tr w hpre hs
    have hlen : 0 + pre.length = pre.length := by omega
    rw [executeSteps,
      executeStepsFrom_append_ok cfg rng (s :: post) v pre 0 none tr hpre]
    simp only [executeStepsFrom, hs, hlen]
  · intro hle steps d h
    exact executeStepsFrom_delay_bounds cfg rng hle steps 0 none d h
  · intro hh steps
    rw [executeSteps]
    induction steps with
    | nil => rfl
    | cons s rest _ =>
      rw [executeStepsFrom]
      have hc : ¬(cfg.humanLikeDelay ∧ 0 < 0) := by simp
      rcases ha : s.action none with e | w
      · simp [ha, if_neg hc, countDelay, countRun]
      · have := executeStepsFrom_delay_count_pos cfg rng hh rest 1
          (some w) (le_refl 1)
        simp only [ha, if_neg hc]
        simp [countDelay, countRun, List.countP_cons] at *
        omega

/-- Concrete witness for `executeSteps_spec`: in a 5-step pipeline over
`Nat` whose second step throws, the run rejects with that step's error
after executing exactly steps 1 and 2. -/
theorem executeSteps_spec_witness :
    executeSteps (α := Nat) (ε := String) standardConfig (fun _ => 0)
      ([⟨"step1", fun _ => .ok 1⟩] ++
        ⟨"step2", fun _ => .error "boom"⟩ ::
        [⟨"step3", fun x => .ok ((x.getD 0) + 1)⟩,
         ⟨"step4", fun x => .ok ((x.getD 0) + 1)⟩,
         ⟨"step5", fun x => .ok ((x.getD 0) + 1)⟩]) =
      (.error "boom",
        [TraceEv.stepRun "step1"] ++ [TraceEv.delayEv 1000] ++
          [TraceEv.stepRun "step2"]) := by
  have h := (executeSteps_spec (α := Nat) (ε := String) standardConfig
    (fun _ => 0)).1
    [⟨"step1", fun _ => .ok 1⟩]
    [⟨"step3", fun x => .ok ((x.getD 0) + 1)⟩,
     ⟨"step4", fun x => .ok ((x.getD 0) + 1)⟩,
     ⟨"step5", fun x => .ok ((x.getD 0) + 1)⟩]
    ⟨"step2", fun _ => .error "boom"⟩ (some 1) [TraceEv.stepRun "step1"]
    "boom" (by rfl) (by rfl)
  rw [h]
  rfl

theorem perfGet_perfUpdate_self (perf : List (String × Counters))
    (k : String) (f : Counters → Counters) :
    perfGet (perfUpdate perf k f) k = (perfGet perf k).map f := by
  induction perf with
  | nil => rfl
  | cons e rest ih =>
    by_cases he : e.1 = k
    · simp only [perfUpdate, if_pos he, perfGet, ih]
      rfl
    · simp only [perfUpdate, if_neg he, perfGet, ih]

theorem perfGet_append_of_none (l : List (String × Counters)) (k : String) :
    ∀ perf : List (String × Counters), perfGet perf k = none →
      perfGet (perf ++ l) k = perfGet l k := by
  intro perf
  induction perf with
  | nil => intro _; rfl
  | cons e rest ih =>
    intro h
    rw [perfGet] at h
    by_cases he : e.1 = k
    · rw [if_pos he] at h
      cases h
    · rw [if_neg he] at h
      rw [List.cons_append, perfGet, if_neg he]
      exact ih h

theorem perfGet_init_self (perf : List (String × Counters)) (k : String) :
    perfGet (initializeStrategyStats perf k) k =
      some ((perfGet perf k).getD {}) := by
  rcases h : perfGet perf k with _ | c
  · simp only [initializeStrategyStats, h]
    rw [perfGet_append_of_none _ k perf h]
    simp [perfGet]
  · simp only [initializeStrategyStats, h]
    rfl

/-- C10: an unrecognized strategy name rejects with the unknown-strategy
error without running any pipeline step, yet first bumps the global and
per-name attempt counters (creating a stats bucket under the
unrecognized name) and afterwards bumps the global and per-name failure
counters. -/
theorem executeStrategy_unknown_spec (st : ModuleState) (fd : FormData)
    (name : String) (o : Oracle) (h1 : name ≠ "standard")
    (h2 : name ≠ "smart") (h3 : name ≠ "aggressive") :
    (executeStrategy st fd name o).1 = .error ("未知策略: " ++ name)
    ∧ (executeStrategy st fd name o).2.1 = []
    ∧ (executeStrategy st fd name o).2.2.stats.attempts =
        st.stats.attempts + 1
    ∧ (executeStrategy st fd name o).2.2.stats.failures =
        st.stats.failures + 1
    ∧ (executeStrategy st fd name o).2.2.stats.successes =
        st.stats.successes
    ∧ perfGet (executeStrategy st fd name o).2.2.stats.strategyPerformance
        name = some
          { attempts :=
              ((perfGet st.stats.strategyPerformance name).getD {}).attempts + 1
            successes :=
              ((perfGet st.stats.strategyPerformance name).getD {}).successes
            failures :=
              ((perfGet st.stats.strategyPerformance name).getD {}).failures + 1 }
    ∧ (perfGet st.stats.strategyPerformance name = none →
        perfGet (executeStrategy st fd name o).2.2.stats.strategyPerformance
          name = some { attempts := 1, successes := 0, failures := 1 }) := by
  have hperf : perfGet
      (executeStrategy st fd name o).2.2.stats.strategyPerformance name =
      some
        { attempts :=
            ((perfGet st.stats.strategyPerformance name).getD {}).attempts + 1
          successes :=
            ((perfGet st.stats.strategyPerformance name).getD {}).successes
          failures :=
            ((perfGet st.stats.strategyPerformance name).getD {}).failures + 1 } := by
    simp only [executeStrategy, if_neg h1, if_neg h2, if_neg h3]
    rw [perfGet_perfUpdate_self, perfGet_perfUpdate_self, perfGet_init_self]
    rfl
  refine ⟨?_, ?_, ?_, ?_, ?_, hperf, ?_⟩
  · simp only [executeStrategy, if_neg h1, if_neg h2, if_neg h3]
  · simp only [executeStrategy, if_neg h1, if_neg h2, if_neg h3]
  · simp only [executeStrategy, if_neg h1, if_neg h2, if_neg h3]
  · simp only [executeStrategy, if_neg h1, if_neg h2, if_neg h3]
  · simp only [executeStrategy, if_neg h1, if_neg h2, if_neg h3]
  · intro hnone
    rw [hperf, hnone]
    rfl

/-- Concrete witness for `executeStrategy_unknown_spec`: the name
"turbo" rejects, and a fresh `turbo` bucket records 1 attempt and
1 failure. -/
theorem executeStrategy_unknown_spec_witness :
    (executeStrategy {} {} "turbo" {}).1 = .error ("未知策略: " ++ "turbo")
    ∧ (executeStrategy {} {} "turbo" {}).2.1 = []
    ∧ perfGet (executeStrategy {} {} "turbo" {}).2.2.stats.strategyPerformance
        "turbo" = some { attempts := 1, successes := 0, failures := 1 } := by
  have h := executeStrategy_unknown_spec {} {} "turbo" {}
    (by decide) (by decide) (by decide)
  exact ⟨h.1, h.2.1, h.2.2.2.2.2.2 (by rfl)⟩

theorem getStrategy_standard : getStrategy "standard" = standardConfig := rfl

theorem getStrategy_aggressive :
    getStrategy "aggressive" = aggressiveConfig := rfl

/-- C6, amended: the scenario resolves with success, email
`alexsmith01@outlook.com` and password `Abc12345!` — provided
`currentFormData` was set to the input (as the repository's
`executeRegistration` caller does before delegating) — and the standard
profile's success counter gains exactly 1. -/
theorem executeStrategy_standard_e2e (st : ModuleState) (o : Oracle)
    (hcur : st.currentFormData = some c6Form)
    (hok : o.submitOk = true) :
    (executeStrategy st c6Form "standard" o).1 =
      .ok (some (PVal.vFinal
        { success := true, email := "alexsmith01@outlook.com",
          password := "Abc12345!", message := "注册成功",
          timestamp := o.nowIso }))
    ∧ (executeStrategy st c6Form "standard" o).2.2.stats.successes =
        st.stats.successes + 1
    ∧ (executeStrategy st c6Form "standard" o).2.2.stats.attempts =
        st.stats.attempts + 1
    ∧ perfGet
        (executeStrategy st c6Form "standard" o).2.2.stats.strategyPerformance
        "standard" = some
          { attempts :=
              ((perfGet st.stats.strategyPerformance "standard").getD
                {}).attempts + 1
            successes :=
              ((perfGet st.stats.strategyPerformance "standard").getD
                {}).successes + 1
            failures :=
              ((perfGet st.stats.strategyPerformance "standard").getD
                {}).failures } := by
  have hval : validateFormData c6Form = .ok c6Form := by rfl
  have hrun : (executeStandardStrategy c6Form standardConfig
      (some c6Form) o).1 =
      .ok (some (PVal.vFinal
        { success := true, email := "alexsmith01@outlook.com",
          password := "Abc12345!", message := "注册成功",
          timestamp := o.nowIso })) := by
    simp only [executeStandardStrategy, executeSteps, executeStepsFrom,
      standardSteps, hval, Except.map, submitRegistration, hok, if_true,
      validateResponse, finalizeRegistration, prepareRequest]
    rfl
  have hpair : (executeStandardStrategy c6Form standardConfig
      (some c6Form) o) =
      ((executeStandardStrategy c6Form standardConfig (some c6Form) o).1,
        (executeStandardStrategy c6Form standardConfig
          (some c6Form) o).2) := rfl
  refine ⟨?_, ?_, ?_, ?_⟩
  · simp only [executeStrategy, getStrategy_standard, hcur]
    rw [hpair, hrun]
    simp
  · simp only [executeStrategy, getStrategy_standard, hcur]
    rw [hpair, hrun]
    simp
  · simp only [executeStrategy, getStrategy_standard, hcur]
    rw [hpair, hrun]
    simp
  · simp only [executeStrategy, getStrategy_standard, hcur]
    rw [hpair, hrun]
    simp only [if_pos, Prod.fst]
    rw [perfGet_perfUpdate_self, perfGet_perfUpdate_self, perfGet_init_self]
    rcases perfGet st.stats.strategyPerformance "standard" with _ | c <;> rfl

/-- Concrete witness for `executeStrategy_standard_e2e`:
`currentFormData` previously set, always-succeeding submission. -/
theorem executeStrategy_standard_e2e_witness :
    (executeStrategy { currentFormData := some c6Form } c6Form
      "standard" {}).1 =
      .ok (some (PVal.vFinal
        { success := true, email := "alexsmith01@outlook.com",
          password := "Abc12345!", message := "注册成功",
          timestamp := "" }))
    ∧ (executeStrategy { currentFormData := some c6Form } c6Form
        "standard" {}).2.2.stats.successes = 1 := by
  have h := executeStrategy_standard_e2e
    { currentFormData := some c6Form } {} (by rfl) (by rfl)
  exact ⟨h.1, h.2.1⟩

/-- C6, counterexample to the claim as stated: calling `executeStrategy`
itself (without the caller that sets `currentFormData`) yields the
placeholder password `****`, not `Abc12345!`. -/
theorem executeStrategy_standard_placeholder_password :
    (executeStrategy {} c6Form "standard" {}).1 =
      .ok (some (PVal.vFinal
        { success := true, email := "alexsmith01@outlook.com",
          password := "****", message := "注册成功", timestamp := "" }))
    ∧ "****" ≠ "Abc12345!" := by
  exact ⟨rfl, by decide⟩

theorem promiseAnyAux_fixed {β : Type} (w : β) (t : Nat) :
    ∀ l : List (Except String β × Nat),
      (∀ q ∈ l, ∀ u, q.1 = .ok u → ¬(q.2 < t)) →
      promiseAnyAux l (some (w, t)) = some (w, t) := by
  intro l
  induction l with
  | nil => intro _; rfl
  | cons p rest ih =>
    intro h
    rcases hp : p.1 with e | u <;> simp only [promiseAnyAux, hp]
    · exact ih (fun q hq => h q (List.mem_cons_of_mem p hq))
    · rw [if_neg (h p (List.mem_cons_self p rest) u hp)]
      exact ih (fun q hq => h q (List.mem_cons_of_mem p hq))

theorem promiseAnyAux_first {β : Type} (v : β) (t : Nat) :
    ∀ (l₁ l₂ : List (Except String β × Nat)) (p : Except String β × Nat)
      (acc : Option (β × Nat)),
      p.1 = .ok v → p.2 = t →
      (∀ q ∈ l₁, ∀ u, q.1 = .ok u → t < q.2) →
      (∀ q ∈ l₂, ∀ u, q.1 = .ok u → ¬(q.2 < t)) →
      (acc = none ∨ ∃ w s, acc = some (w, s) ∧ t < s) →
      promiseAnyAux (l₁ ++ p :: l₂) acc = some (v, t) := by
  intro l₁
  induction l₁ with
  | nil =>
    intro l₂ p acc hp ht _ h₂ hacc
    rw [List.nil_append]
    rcases hacc with rfl | ⟨w, s, rfl, hs⟩
    · simp only [promiseAnyAux, hp, ht]
      exact promiseAnyAux_fixed v t l₂ h₂
    · simp only [promiseAnyAux, hp]
      rw [if_pos (by omega : p.2 < s), ht]
      exact promiseAnyAux_fixed v t l₂ h₂
  | cons q l₁ ih =>
    intro l₂ p acc hp ht h₁ h₂ hacc
    rw [List.cons_append]
    rcases hq : q.1 with e | u <;> simp only [promiseAnyAux, hq]
    · exact ih l₂ p acc hp ht
        (fun z hz => h₁ z (List.mem_cons_of_mem q hz)) h₂ hacc
    · have hqt : t < q.2 := h₁ q (List.mem_cons_self q l₁) u hq
      have hstep : (match acc with
          | none => some (u, q.2)
          | some (w, s) =>
            if q.2 < s then some (u, q.2) else some (w, s)) = none ∨
          ∃ w s, (match acc with
          | none => some (u, q.2)
          | some (w, s) =>
            if q.2 < s then some (u, q.2) else some (w, s)) = some (w, s)
            ∧ t < s := by
        rcases hacc with rfl | ⟨w, s, rfl, hs⟩
        · exact Or.inr ⟨u, q.2, rfl, hqt⟩
        · by_cases hlt : q.2 < s
          · exact Or.inr ⟨u, q.2, by simp [hlt], hqt⟩
          · exact Or.inr ⟨w, s, by simp [hlt], hs⟩
      exact ih l₂ p _ hp ht
        (fun z hz => h₁ z (List.mem_cons_of_mem q hz)) h₂ hstep

theorem promiseAnyAux_some {β : Type} :
    ∀ (l : List (Except String β × Nat)) (acc : Option (β × Nat)),
      (acc ≠ none ∨ ∃ p ∈ l, ∃ u, p.1 = .ok u) →
      promiseAnyAux l acc ≠ none := by
  intro l
  induction l with
  | nil =>
    intro acc h
    rcases h with h | ⟨p, hp, _⟩
    · exact h
    · cases hp
  | cons p rest ih =>
    intro acc h
    rcases hp : p.1 with e | u <;> simp only [promiseAnyAux, hp]
    · refine ih acc ?_
      rcases h with h | ⟨q, hq, w, hw⟩
      · exact Or.inl h
      · rcases List.mem_cons.mp hq with rfl | hq'
        · rw [hp] at hw
          cases hw
        · exact Or.inr ⟨q, hq', w, hw⟩
    · refine ih _ (Or.inl ?_)
      rcases acc with _ | ⟨w, s⟩
      · simp
      · by_cases hlt : p.2 < s
        · simp [hlt]
        · simp [hlt]

/-- C4: under the aggressive profile, exactly 3 data variants are
generated (every variant's email suffixed with a random number below
1000; variants 1 and 2 also get freshly generated name pairs); the race
resolves with the result of the earliest-settling successful variant;
any run with at least one successful variant resolves successfully; and
such a run bumps the aggressive profile's attempt and success counters
each by exactly 1. -/
theorem executeAggressiveStrategy_spec (fd : FormData)
    (cur : Option FormData) (o : Oracle) :
    (generateDataVariants fd 3 o =
      [{ fd with desiredEmail :=
            fd.desiredEmail ++ toString (o.suffix 0 % 1000) },
       { fd with
           desiredEmail := fd.desiredEmail ++ toString (o.suffix 1 % 1000)
           firstName := (o.names 1).1
           lastName := (o.names 1).2 },
       { fd with
           desiredEmail := fd.desiredEmail ++ toString (o.suffix 2 % 1000)
           firstName := (o.names 2).1
           lastName := (o.names 2).2 }])
    ∧ (∀ (j : Nat) (r : Option PVal), j < 3 →
        aggressiveAttemptOutcome fd aggressiveConfig cur o j = .ok r →
        (∀ k, k < 3 → k ≠ j → ∀ u : Option PVal,
          aggressiveAttemptOutcome fd aggressiveConfig cur o k = .ok u →
          (if k < j then o.settle j < o.settle k
           else ¬(o.settle k < o.settle j))) →
        (executeAggressiveStrategy fd aggressiveConfig cur o).1 = .ok r)
    ∧ ((∃ j, j < 3 ∧ ∃ u : Option PVal,
          aggressiveAttemptOutcome fd aggressiveConfig cur o j = .ok u) →
        ∃ r, (executeAggressiveStrategy fd aggressiveConfig cur o).1 =
          .ok r)
    ∧ (∀ (st : ModuleState) (r : Option PVal),
        st.currentFormData = cur →
        (executeAggressiveStrategy fd aggressiveConfig cur o).1 = .ok r →
        (executeStrategy st fd "aggressive" o).1 = .ok r
        ∧ (executeStrategy st fd "aggressive" o).2.2.stats.successes =
            st.stats.successes + 1
        ∧ (executeStrategy st fd "aggressive" o).2.2.stats.attempts =
            st.stats.attempts + 1
        ∧ perfGet
            (executeStrategy st fd "aggressive" o).2.2.stats.strategyPerformance
            "aggressive" = some
              { attempts :=
                  ((perfGet st.stats.strategyPerformance "aggressive").getD
                    {}).attempts + 1
                successes :=
                  ((perfGet st.stats.strategyPerformance "aggressive").getD
                    {}).successes + 1
                failures :=
                  ((perfGet st.stats.strategyPerformance "aggressive").getD
                    {}).failures }) := by
  have hagg1 : (executeAggressiveStrategy fd aggressiveConfig cur o).1 =
      promiseAny
        [(aggressiveAttemptOutcome fd aggressiveConfig cur o 0, o.settle 0),
         (aggressiveAttemptOutcome fd aggressiveConfig cur o 1, o.settle 1),
         (aggressiveAttemptOutcome fd aggressiveConfig cur o 2, o.settle 2)]
      := rfl
  refine ⟨rfl, ?_, ?_, ?_⟩
  · intro j r hj hok hmin
    rw [hagg1]
    interval_cases j
    · have hfirst := promiseAnyAux_first r (o.settle 0) []
        [(aggressiveAttemptOutcome fd aggressiveConfig cur o 1, o.settle 1),
         (aggressiveAttemptOutcome fd aggressiveConfig cur o 2, o.settle 2)]
        (aggressiveAttemptOutcome fd aggressiveConfig cur o 0, o.settle 0)
        none hok rfl (by intro q hq; cases hq)
        (by
          intro q hq u hu
          rcases List.mem_cons.mp hq with rfl | hq'
          · simpa using hmin 1 (by omega) (by omega) u hu
          · rcases List.mem_singleton.mp hq' with rfl
            simpa using hmin 2 (by omega) (by omega) u hu)
        (Or.inl rfl)
      simp only [List.nil_append] at hfirst
      simp [promiseAny, hfirst]
    · have hfirst := promiseAnyAux_first r (o.settle 1)
        [(aggressiveAttemptOutcome fd aggressiveConfig cur o 0, o.settle 0)]
        [(aggressiveAttemptOutcome fd aggressiveConfig cur o 2, o.settle 2)]
        (aggressiveAttemptOutcome fd aggressiveConfig cur o 1, o.settle 1)
        none hok rfl
        (by
          intro q hq u hu
          rcases List.mem_singleton.mp hq with rfl
          simpa using hmin 0 (by omega) (by omega) u hu)
        (by
          intro q hq u hu
          rcases List.mem_singleton.mp hq with rfl
          simpa using hmin 2 (by omega) (by omega) u hu)
        (Or.inl rfl)
      simp only [List.cons_append, List.nil_append] at hfirst
      simp [promiseAny, hfirst]
    · have hfirst := promiseAnyAux_first r (o.settle 2)
        [(aggressiveAttemptOutcome fd aggressiveConfig cur o 0, o.settle 0),
         (aggressiveAttemptOutcome fd aggressiveConfig cur o 1, o.settle 1)]
        []
        (aggressiveAttemptOutcome fd aggressiveConfig cur o 2, o.settle 2)
        none hok rfl
        (by
          intro q hq u hu
          rcases List.mem_cons.mp hq with rfl | hq'
          · simpa using hmin 0 (by omega) (by omega) u hu
          · rcases List.mem_singleton.mp hq' with rfl
            simpa using hmin 1 (by omega) (by omega) u hu)
        (by intro q hq; cases hq)
        (Or.inl rfl)
      simp only [List.cons_append, List.nil_append] at hfirst
      simp [promiseAny, hfirst]
  · rintro ⟨j, hj, u, hu⟩
    rw [hagg1, promiseAny]
    have hne : promiseAnyAux
        [(aggressiveAttemptOutcome fd aggressiveConfig cur o 0, o.settle 0),
         (aggressiveAttemptOutcome fd aggressiveConfig cur o 1, o.settle 1),
         (aggressiveAttemptOutcome fd aggressiveConfig cur o 2, o.settle 2)]
        none ≠ none := by
      refine promiseAnyAux_some _ none (Or.inr ?_)
      interval_cases j
      · exact ⟨(aggressiveAttemptOutcome fd aggressiveConfig cur o 0,
          o.settle 0), by simp, u, hu⟩
      · exact ⟨(aggressiveAttemptOutcome fd aggressiveConfig cur o 1,
          o.settle 1), by simp, u, hu⟩
      · exact ⟨(aggressiveAttemptOutcome fd aggressiveConfig cur o 2,
          o.settle 2), by simp, u, hu⟩
    rcases hres : promiseAnyAux
        [(aggressiveAttemptOutcome fd aggressiveConfig cur o 0, o.settle 0),
         (aggressiveAttemptOutcome fd aggressiveConfig cur o 1, o.settle 1),
         (aggressiveAttemptOutcome fd aggressiveConfig cur o 2, o.settle 2)]
        none with _ | ⟨w, s⟩
    · exact absurd hres hne
    · exact ⟨w, rfl⟩
  · intro st r hcur hr
    have hpair : (executeAggressiveStrategy fd aggressiveConfig cur o) =
        ((executeAggressiveStrategy fd aggressiveConfig cur o).1,
          (executeAggressiveStrategy fd aggressiveConfig cur o).2) := rfl
    refine ⟨?_, ?_, ?_, ?_⟩
    · simp only [executeStrategy, getStrategy_aggressive, hcur,
        if_neg (by decide : ¬("aggressive" = "standard")),
        if_neg (by decide : ¬("aggressive" = "smart")), if_pos rfl]
      rw [hpair, hr]
      simp
    · simp only [executeStrategy, getStrategy_aggressive, hcur,
        if_neg (by decide : ¬("aggressive" = "standard")),
        if_neg (by decide : ¬("aggressive" = "smart")), if_pos rfl]
      rw [hpair, hr]
      simp
    · simp only [executeStrategy, getStrategy_aggressive, hcur,
        if_neg (by decide : ¬("aggressive" = "standard")),
        if_neg (by decide : ¬("aggressive" = "smart")), if_pos rfl]
      rw [hpair, hr]
      simp
    · simp only [executeStrategy, getStrategy_aggressive, hcur,
        if_neg (by decide : ¬("aggressive" = "standard")),
        if_neg (by decide : ¬("aggressive" = "smart")), if_pos rfl]
      rw [hpair, hr]
      simp only [if_true, Prod.fst]
      rw [perfGet_perfUpdate_self, perfGet_perfUpdate_self,
        perfGet_init_self]
      rcases perfGet st.stats.strategyPerformance "aggressive" with _ | c
        <;> rfl

/-- Concrete witness for `executeAggressiveStrategy_spec`: variants 0
and 2 fail, variant 1 succeeds, the race resolves with variant 1's
result, and the aggressive success counter gains exactly 1. -/
theorem executeAggressiveStrategy_spec_witness :
    aggressiveAttemptOutcome c6Form aggressiveConfig none c4Oracle 1 =
      .ok (some (PVal.vFinal
        { success := true, email := "alexsmith010@outlook.com",
          password := "****", message := "注册成功（激进模式）",
          timestamp := "" }))
    ∧ (executeAggressiveStrategy c6Form aggressiveConfig none c4Oracle).1 =
        .ok (some (PVal.vFinal
          { success := true, email := "alexsmith010@outlook.com",
            password := "****", message := "注册成功（激进模式）",
            timestamp := "" }))
    ∧ (executeStrategy {} c6Form "aggressive" c4Oracle).2.2.stats.successes
        = 1 := by
  have hout1 : aggressiveAttemptOutcome c6Form aggressiveConfig none
      c4Oracle 1 =
      .ok (some (PVal.vFinal
        { success := true, email := "alexsmith010@outlook.com",
          password := "****", message := "注册成功（激进模式）",
          timestamp := "" })) := rfl
  have hout0 : aggressiveAttemptOutcome c6Form aggressiveConfig none
      c4Oracle 0 = .error "注册失败（激进模式）" := rfl
  have hout2 : aggressiveAttemptOutcome c6Form aggressiveConfig none
      c4Oracle 2 = .error "注册失败（激进模式）" := rfl
  have h := executeAggressiveStrategy_spec c6Form none c4Oracle
  have hrace := h.2.1 1
    (some (PVal.vFinal
      { success := true, email := "alexsmith010@outlook.com",
        password := "****", message := "注册成功（激进模式）",
        timestamp := "" }))
    (by omega) hout1
    (by
      intro k hk hne u hu
      interval_cases k
      · rw [hout0] at hu
        exact Except.noConfusion hu
      · exact absurd rfl hne
      · rw [hout2] at hu
        exact Except.noConfusion hu)
  exact ⟨hout1, hrace, (h.2.2.2 {} _ rfl hrace).2.1⟩

/-- C7, amended: the smart profile's retry wrapper retries every thrown
error (the transient-substring table of `shouldRetry` is not consulted
by `Utils.retry`); the collaborator is invoked at most `retryCount`
times; the wait after the `n`-th failed attempt is `2000 × n` (linear
backoff); and after the `retryCount`-th failure the last error
propagates; the smart profile's `retryCount` is 5. -/
theorem submitRegistrationWithRetry_spec
    (submitAttempt : Nat → Except String SubmitResponse)
    (config : StrategyConfig) :
    ((submitRegistrationWithRetry submitAttempt config).2.1 ≤
      config.retryCount)
    ∧ (∀ (k : Nat) (v : SubmitResponse), k < config.retryCount →
        submitAttempt k = .ok v →
        (∀ j, j < k → ∃ e, submitAttempt j = .error e) →
        submitRegistrationWithRetry submitAttempt config =
          (.ok (some v), k + 1,
            (List.range k).map (fun j => 2000 * (j + 1))))
    ∧ ((∀ j, j < config.retryCount → ∃ e, submitAttempt j = .error e) →
        0 < config.retryCount →
        ∃ e, submitAttempt (config.retryCount - 1) = .error e ∧
          submitRegistrationWithRetry submitAttempt config =
            (.error e, config.retryCount,
              (List.range (config.retryCount - 1)).map
                (fun j => 2000 * (j + 1))))
    ∧ smartConfig.retryCount = 5 := by
  refine ⟨retryLoop_calls_le _ _ _ _, ?_, ?_, rfl⟩
  · intro k v hk hv hfail
    have hs := retryLoop_first_success submitAttempt 2000 k
      config.retryCount 0 v hk (by simpa using hv)
      (fun j hj => by simpa using hfail j hj)
    rw [submitRegistrationWithRetry, retry, hs]
    rw [show (fun j => 2000 * (0 + j + 1)) = (fun j => 2000 * (j + 1))
      from by funext x; omega]
  · intro hfail hpos
    obtain ⟨e, he, hr⟩ := retryLoop_all_fail submitAttempt 2000
      config.retryCount 0 hpos (fun j hj => by simpa using hfail j hj)
    refine ⟨e, by simpa using he, ?_⟩
    rw [submitRegistrationWithRetry, retry, hr]
    rw [show (fun k => 2000 * (0 + k + 1)) = (fun j => 2000 * (j + 1))
      from by funext x; omega]

/-- Concrete witness for `submitRegistrationWithRetry_spec`: two
transient failures then success under the smart profile gives 3
invocations and backoffs 2000, 4000. -/
theorem submitRegistrationWithRetry_spec_witness :
    submitRegistrationWithRetry c7Submit smartConfig =
      (.ok (some
        { success := true
          email := "e@outlook.com"
          message := "注册成功"
          verificationRequired := false }),
        3, [2000, 4000]) := by
  have h := (submitRegistrationWithRetry_spec c7Submit smartConfig).2.1 2
    { success := true
      email := "e@outlook.com"
      message := "注册成功"
      verificationRequired := false }
    (by norm_num [smartConfig]) rfl
    (by
      intro j hj
      refine ⟨"网络连接超时", ?_⟩
      interval_cases j <;> rfl)
  rw [h]
  rfl

/-- C7, counterexample to the claim as stated: a non-transient error —
`验证码错误`, one of the simulated submission errors, absent from the
`shouldRetry` substring table — is still retried: the collaborator runs
all 5 smart-profile attempts with full linear backoff before the error
propagates. -/
theorem retry_retries_nontransient_counterexample :
    isTransientError "验证码错误" = false
    ∧ "验证码错误" ∈ submitErrors
    ∧ (submitRegistrationWithRetry (fun _ => .error "验证码错误")
        smartConfig).2.1 = 5
    ∧ (submitRegistrationWithRetry (fun _ => .error "验证码错误")
        smartConfig).1 = .error "验证码错误"
    ∧ (submitRegistrationWithRetry (fun _ => .error "验证码错误")
        smartConfig).2.2 = [2000, 4000, 6000, 8000] := by
  refine ⟨by decide, by decide, ?_, ?_, ?_⟩ <;> rfl

end RegAssist
